import Mathlib

/-!
Shallow embedding of the CHIP-8 interpreter in src/main.rs (the `Cpu` and
`IO` structs and their methods).  Machine integers are modelled as `Nat`
with explicit `% 2^w` wherever the Rust code wraps (release semantics for
the plain `+`/`-`/`<<` operators on `u8`/`u16`), `Vec` indexing is modelled
as a bounds-guarded access returning `Except`, and the two `panic!` calls
plus the out-of-bounds `Vec`/slice panics are modelled as error values.
The `rand::ThreadRng` source is modelled as an oracle field `rand` holding
the byte that `gen::<u8>()` would return.
-/

namespace Chip8

/-- const WIDTH: usize = 64 -/
def WIDTH : Nat := 64

/-- const HEIGHT: usize = 32 -/
def HEIGHT : Nat := 32

/-- const ROM_START_ADDR: usize = 0x200 -/
def ROM_START_ADDR : Nat := 0x200

/-- const CHAR_FONT_ADDR: usize = 0x0 -/
def CHAR_FONT_ADDR : Nat := 0x0

/-- Length of the `mem` vector created in IO::new (`vec![0; 4 * 1024]`). -/
def MEM_SIZE : Nat := 4 * 1024

/-- Length of the `frame_buffer` vector (`vec![0; WIDTH * HEIGHT]`). -/
def FB_SIZE : Nat := WIDTH * HEIGHT

/-- The ways in which one interpreter step can abort the process: the two
`panic!` calls in `Cpu::step`, an out-of-bounds `Vec` index in
`IO::read`/`IO::write`, and an out-of-bounds slice `self.mem[idx..][..n]`
in `IO::draw`. -/
inductive Err where
  | machineCode (pc : Nat)
  | badOpcode (op : Nat) (pc : Nat)
  | oob (addr : Nat)
  | sliceOob (idx n : Nat)
deriving DecidableEq

/-- Pointwise update of a `Nat`-indexed store; models `arr[i] = val`. -/
def upd (f : Nat → Nat) (i val : Nat) : Nat → Nat :=
  fun j => if j = i then val else f j

/-- The `IO` struct: frame buffer of `u32` pixels, memory of `u8` bytes,
and the most recently pressed key. -/
structure Io where
  fb : Nat → Nat
  didDraw : Bool
  mem : Nat → Nat
  key : Option Nat

/-- `IO::read`: `self.mem[addr as usize]`, which panics when
`addr ≥ 4096`; the `% 256` embeds the `u8` element type of `mem`. -/
def Io.read (io : Io) (addr : Nat) : Except Err Nat :=
  if addr < MEM_SIZE then .ok (io.mem addr % 256) else .error (.oob addr)

/-- `IO::write`: `self.mem[addr as usize] = data`, panicking when
`addr ≥ 4096`; the `% 256` embeds the `u8` element type. -/
def Io.write (io : Io) (addr data : Nat) : Except Err Io :=
  if addr < MEM_SIZE then
    .ok { io with mem := upd io.mem addr (data % 256) }
  else .error (.oob addr)

/-- `IO::clear_display`: set every frame-buffer pixel to 0. -/
def Io.clearDisplay (io : Io) : Io :=
  { io with fb := fun _ => 0 }

/-- Body of the inner `for dx in 0..8` loop of `IO::draw`, acting on the
pair (frame buffer, collision flag). -/
def drawBit (x y dy row : Nat) (st : (Nat → Nat) × Bool) (dx : Nat) :
    (Nat → Nat) × Bool :=
  let bit := (row >>> (7 - dx)) &&& 1
  let pixel := bit * 0xFFFFFF
  let pi := x + dx + (y + dy) * WIDTH
  if FB_SIZE ≤ pi then st
  else
    let oldPixel := st.1 pi
    let newPixel := (st.1 pi ^^^ pixel) &&& 0xFFFFFF
    (upd st.1 pi newPixel, st.2 || (decide (oldPixel ≠ 0) && decide (newPixel = 0)))

/-- One iteration of the outer loop of `IO::draw`: blit the eight bits of
one sprite row. -/
def drawRow (x y dy row : Nat) (st : (Nat → Nat) × Bool) : (Nat → Nat) × Bool :=
  (List.range 8).foldl (drawBit x y dy row) st

/-- The outer `for (dy, row) in ...enumerate()` loop of `IO::draw`. -/
def drawRowsAux (x y : Nat) : Nat → List Nat → (Nat → Nat) × Bool → (Nat → Nat) × Bool
  | _, [], st => st
  | dy, row :: rest, st => drawRowsAux x y (dy + 1) rest (drawRow x y dy row st)

/-- The XOR blit of `IO::draw` on a given list of sprite rows, starting
with a cleared collision flag. -/
def drawRows (x y : Nat) (rows : List Nat) (fb : Nat → Nat) : (Nat → Nat) × Bool :=
  drawRowsAux x y 0 rows (fb, false)

/-- `IO::draw`: slices `n` sprite rows out of memory at `idx` (panicking
when the slice runs past the end of `mem`) and XOR-blits them. -/
def Io.draw (io : Io) (x y n idx : Nat) : Except Err (Io × Bool) :=
  if idx + n ≤ MEM_SIZE then
    let rows := (List.range n).map fun dy => io.mem (idx + dy) % 256
    let r := drawRows x y rows io.fb
    .ok ({ io with fb := r.1, didDraw := true }, r.2)
  else .error (.sliceOob idx n)

/-- Decidable test: does the draw of `n` rows at origin `(x, y)` address
the linear frame-buffer index `pi` with one of its 8×n bits?  (The code
addresses index `x + dx + (y + dy) * WIDTH` with no coordinate check.) -/
def touchesB (x y n pi : Nat) : Bool :=
  (List.range n).any fun dy => (List.range 8).any fun dx =>
    pi == x + dx + (y + dy) * WIDTH

/-- The sprite bit that the draw at origin `(x, y)` XORs onto linear
index `pi` (meaningful when `touchesB` holds at `pi`). -/
def sprBit (x y : Nat) (rows : List Nat) (pi : Nat) : Nat :=
  (rows.getD ((pi - x) / WIDTH - y) 0 >>> (7 - (pi - x) % WIDTH)) &&& 1

/-- The `Cpu` struct. -/
structure Cpu where
  rand : Nat
  v : Nat → Nat
  idx : Nat
  sp : Nat
  pc : Nat
  delay : Nat
  sound : Nat
  cycle : Nat

/-- `Cpu::new` (the thread-local RNG becomes the oracle byte `rand`). -/
def Cpu.new (rand : Nat) : Cpu :=
  { rand
    v := fun _ => 0
    idx := 0
    sp := 0xEFF
    pc := ROM_START_ADDR
    delay := 0
    sound := 0
    cycle := 59 }

/-- The first six lines of `Cpu::step`: `self.cycle -= 1` (u8, wrapping)
and, when the counter hits zero, the saturating decrement of both timers
and the reset of the counter to 59. -/
def tickTimers (cpu : Cpu) : Cpu :=
  let cycle := (cpu.cycle + 255) % 256
  if cycle = 0 then
    { cpu with delay := cpu.delay - 1, sound := cpu.sound - 1, cycle := 59 }
  else
    { cpu with cycle := cycle }

/-- `Cpu::advance`: `self.pc += 2` (u16, wrapping). -/
def Cpu.advance (cpu : Cpu) : Cpu :=
  { cpu with pc := (cpu.pc + 2) % 65536 }

/-- `Cpu::fetch`: read the two bytes at `pc`, advance `pc`, and compose
them big-endian. -/
def Cpu.fetch (cpu : Cpu) (io : Io) : Except Err (Cpu × Nat) := do
  let hi ← io.read cpu.pc
  let lo ← io.read ((cpu.pc + 1) % 65536)
  .ok (cpu.advance, hi * 256 + lo)

/-- `Cpu::push`: write the low byte at `sp` and the high byte at `sp - 1`,
then `sp -= 2` (u16, wrapping). -/
def Cpu.push (cpu : Cpu) (io : Io) (data : Nat) : Except Err (Cpu × Io) := do
  let io ← io.write cpu.sp (data &&& 0xFF)
  let io ← io.write ((cpu.sp + 65535) % 65536) ((data >>> 8) &&& 0xFF)
  .ok ({ cpu with sp := (cpu.sp + 65534) % 65536 }, io)

/-- `Cpu::pop`: `sp += 2`, then read the low byte at `sp` and the high
byte at `sp - 1` and compose them big-endian. -/
def Cpu.pop (cpu : Cpu) (io : Io) : Except Err (Cpu × Nat) := do
  let sp := (cpu.sp + 2) % 65536
  let lo ← io.read sp
  let hi ← io.read ((sp + 65535) % 65536)
  .ok ({ cpu with sp := sp }, hi * 256 + lo)

/-- The decode-and-execute `match` of `Cpu::step`, with the four nibbles
extracted exactly as in the source and the arms tried in source order
(`cpu` here is the state after `fetch` has advanced `pc`; the local
nibble bindings o0..o3 of the source are inlined at their use sites). -/
def Cpu.exec (cpu : Cpu) (io : Io) (op : Nat) : Except Err (Cpu × Io) :=
  if ((op >>> 12) &&& 0xF) = 0 ∧ ((op >>> 8) &&& 0xF) = 0 ∧ ((op >>> 4) &&& 0xF) = 0xE ∧ (op &&& 0xF) = 0 then
    .ok (cpu, io.clearDisplay)
  else if ((op >>> 12) &&& 0xF) = 0 ∧ ((op >>> 8) &&& 0xF) = 0 ∧ ((op >>> 4) &&& 0xF) = 0xE ∧ (op &&& 0xF) = 0xE then do
    let r ← cpu.pop io
    .ok ({ r.1 with pc := r.2 }, io)
  else if ((op >>> 12) &&& 0xF) = 0 then
    .error (.machineCode ((cpu.pc + 65534) % 65536))
  else if ((op >>> 12) &&& 0xF) = 1 then
    .ok ({ cpu with pc := (((op >>> 8) &&& 0xF) <<< 8) ||| (((op >>> 4) &&& 0xF) <<< 4) ||| (op &&& 0xF) }, io)
  else if ((op >>> 12) &&& 0xF) = 2 then do
    let r ← cpu.push io cpu.pc
    .ok ({ r.1 with pc := (((op >>> 8) &&& 0xF) <<< 8) ||| (((op >>> 4) &&& 0xF) <<< 4) ||| (op &&& 0xF) }, r.2)
  else if ((op >>> 12) &&& 0xF) = 3 then
    .ok (if cpu.v ((op >>> 8) &&& 0xF) = (((op >>> 4) &&& 0xF) <<< 4) ||| (op &&& 0xF) then cpu.advance else cpu, io)
  else if ((op >>> 12) &&& 0xF) = 4 then
    .ok (if cpu.v ((op >>> 8) &&& 0xF) ≠ (((op >>> 4) &&& 0xF) <<< 4) ||| (op &&& 0xF) then cpu.advance else cpu, io)
  else if ((op >>> 12) &&& 0xF) = 5 ∧ (op &&& 0xF) = 0 then
    .ok (if cpu.v ((op >>> 8) &&& 0xF) = cpu.v ((op >>> 4) &&& 0xF) then cpu.advance else cpu, io)
  else if ((op >>> 12) &&& 0xF) = 6 then
    .ok ({ cpu with v := upd cpu.v ((op >>> 8) &&& 0xF) ((((op >>> 4) &&& 0xF) <<< 4) ||| (op &&& 0xF)) }, io)
  else if ((op >>> 12) &&& 0xF) = 7 then
    .ok ({ cpu with v := upd cpu.v ((op >>> 8) &&& 0xF) ((cpu.v ((op >>> 8) &&& 0xF) + ((((op >>> 4) &&& 0xF) <<< 4) ||| (op &&& 0xF))) % 256) }, io)
  else if ((op >>> 12) &&& 0xF) = 8 ∧ (op &&& 0xF) = 0 then
    .ok ({ cpu with v := upd cpu.v ((op >>> 8) &&& 0xF) (cpu.v ((op >>> 4) &&& 0xF)) }, io)
  else if ((op >>> 12) &&& 0xF) = 8 ∧ (op &&& 0xF) = 1 then
    .ok ({ cpu with v := upd cpu.v ((op >>> 8) &&& 0xF) (cpu.v ((op >>> 8) &&& 0xF) ||| cpu.v ((op >>> 4) &&& 0xF)) }, io)
  else if ((op >>> 12) &&& 0xF) = 8 ∧ (op &&& 0xF) = 2 then
    .ok ({ cpu with v := upd cpu.v ((op >>> 8) &&& 0xF) (cpu.v ((op >>> 8) &&& 0xF) &&& cpu.v ((op >>> 4) &&& 0xF)) }, io)
  else if ((op >>> 12) &&& 0xF) = 8 ∧ (op &&& 0xF) = 3 then
    .ok ({ cpu with v := upd cpu.v ((op >>> 8) &&& 0xF) (cpu.v ((op >>> 8) &&& 0xF) ^^^ cpu.v ((op >>> 4) &&& 0xF)) }, io)
  else if ((op >>> 12) &&& 0xF) = 8 ∧ (op &&& 0xF) = 4 then
    let res := (cpu.v ((op >>> 8) &&& 0xF) + cpu.v ((op >>> 4) &&& 0xF)) % 256
    let carry := 256 ≤ cpu.v ((op >>> 8) &&& 0xF) + cpu.v ((op >>> 4) &&& 0xF)
    .ok ({ cpu with v := upd (upd cpu.v ((op >>> 8) &&& 0xF) res) 0xF (if carry then 1 else 0) }, io)
  else if ((op >>> 12) &&& 0xF) = 8 ∧ (op &&& 0xF) = 5 then
    let res := (cpu.v ((op >>> 8) &&& 0xF) + 256 - cpu.v ((op >>> 4) &&& 0xF)) % 256
    let carry := cpu.v ((op >>> 8) &&& 0xF) < cpu.v ((op >>> 4) &&& 0xF)
    .ok ({ cpu with v := upd (upd cpu.v ((op >>> 8) &&& 0xF) res) 0xF (if carry then 0 else 1) }, io)
  else if ((op >>> 12) &&& 0xF) = 8 ∧ (op &&& 0xF) = 6 then
    let v1 := upd cpu.v 0xF (cpu.v ((op >>> 8) &&& 0xF) &&& 1)
    .ok ({ cpu with v := upd v1 ((op >>> 8) &&& 0xF) (v1 ((op >>> 8) &&& 0xF) >>> 1) }, io)
  else if ((op >>> 12) &&& 0xF) = 8 ∧ (op &&& 0xF) = 7 then
    let res := (cpu.v ((op >>> 4) &&& 0xF) + 256 - cpu.v ((op >>> 8) &&& 0xF)) % 256
    let carry := cpu.v ((op >>> 4) &&& 0xF) < cpu.v ((op >>> 8) &&& 0xF)
    .ok ({ cpu with v := upd (upd cpu.v ((op >>> 8) &&& 0xF) res) 0xF (if carry then 0 else 1) }, io)
  else if ((op >>> 12) &&& 0xF) = 8 ∧ (op &&& 0xF) = 0xE then
    let v1 := upd cpu.v 0xF ((cpu.v ((op >>> 8) &&& 0xF) >>> 7) &&& 1)
    .ok ({ cpu with v := upd v1 ((op >>> 8) &&& 0xF) ((v1 ((op >>> 8) &&& 0xF) <<< 1) % 256) }, io)
  else if ((op >>> 12) &&& 0xF) = 9 ∧ (op &&& 0xF) = 0 then
    .ok (if cpu.v ((op >>> 8) &&& 0xF) ≠ cpu.v ((op >>> 4) &&& 0xF) then cpu.advance else cpu, io)
  else if ((op >>> 12) &&& 0xF) = 0xA then
    .ok ({ cpu with idx := (((op >>> 8) &&& 0xF) <<< 8) ||| (((op >>> 4) &&& 0xF) <<< 4) ||| (op &&& 0xF) }, io)
  else if ((op >>> 12) &&& 0xF) = 0xB then
    .ok ({ cpu with pc := (cpu.v 0 + ((((op >>> 8) &&& 0xF) <<< 8) ||| (((op >>> 4) &&& 0xF) <<< 4) ||| (op &&& 0xF))) % 65536 }, io)
  else if ((op >>> 12) &&& 0xF) = 0xC then
    .ok ({ cpu with v := upd cpu.v ((op >>> 8) &&& 0xF) ((cpu.rand % 256) &&& ((((op >>> 4) &&& 0xF) <<< 4) ||| (op &&& 0xF))) }, io)
  else if ((op >>> 12) &&& 0xF) = 0xD then do
    let r ← io.draw (cpu.v ((op >>> 8) &&& 0xF)) (cpu.v ((op >>> 4) &&& 0xF)) (op &&& 0xF) cpu.idx
    .ok ({ cpu with v := upd cpu.v 0xF (if r.2 then 1 else 0) }, r.1)
  else if ((op >>> 12) &&& 0xF) = 0xE ∧ ((op >>> 4) &&& 0xF) = 9 ∧ (op &&& 0xF) = 0xE then
    .ok (if io.key = some (cpu.v ((op >>> 8) &&& 0xF)) then cpu.advance else cpu, io)
  else if ((op >>> 12) &&& 0xF) = 0xE ∧ ((op >>> 4) &&& 0xF) = 0xA ∧ (op &&& 0xF) = 1 then
    .ok (if io.key ≠ some (cpu.v ((op >>> 8) &&& 0xF)) then cpu.advance else cpu, io)
  else if ((op >>> 12) &&& 0xF) = 0xF ∧ ((op >>> 4) &&& 0xF) = 0 ∧ (op &&& 0xF) = 7 then
    .ok ({ cpu with v := upd cpu.v ((op >>> 8) &&& 0xF) cpu.delay }, io)
  else if ((op >>> 12) &&& 0xF) = 0xF ∧ ((op >>> 4) &&& 0xF) = 1 ∧ (op &&& 0xF) = 5 then
    .ok ({ cpu with delay := cpu.v ((op >>> 8) &&& 0xF) }, io)
  else if ((op >>> 12) &&& 0xF) = 0xF ∧ ((op >>> 4) &&& 0xF) = 1 ∧ (op &&& 0xF) = 8 then
    .ok ({ cpu with sound := cpu.v ((op >>> 8) &&& 0xF) }, io)
  else if ((op >>> 12) &&& 0xF) = 0xF ∧ ((op >>> 4) &&& 0xF) = 1 ∧ (op &&& 0xF) = 0xE then
    .ok ({ cpu with idx := (cpu.idx + cpu.v ((op >>> 8) &&& 0xF)) % 65536 }, io)
  else if ((op >>> 12) &&& 0xF) = 0xF ∧ ((op >>> 4) &&& 0xF) = 2 ∧ (op &&& 0xF) = 9 then
    .ok ({ cpu with idx := (CHAR_FONT_ADDR + (cpu.v ((op >>> 8) &&& 0xF) * 5) % 256) % 65536 }, io)
  else if ((op >>> 12) &&& 0xF) = 0xF ∧ ((op >>> 4) &&& 0xF) = 3 ∧ (op &&& 0xF) = 3 then do
    let r ← (List.range 3).foldlM (fun p i => do
      let io ← p.2.write (((cpu.idx + 2) % 65536 + 65536 - i) % 65536) (p.1 % 10)
      Except.ok (p.1 / 10, io)) ((cpu.v ((op >>> 8) &&& 0xF) : Nat), io)
    .ok (cpu, r.2)
  else if ((op >>> 12) &&& 0xF) = 0xF ∧ ((op >>> 4) &&& 0xF) = 5 ∧ (op &&& 0xF) = 5 then do
    let io ← (List.range (((op >>> 8) &&& 0xF) + 1)).foldlM
      (fun io i => io.write ((cpu.idx + i) % 65536) (cpu.v i)) io
    .ok (cpu, io)
  else if ((op >>> 12) &&& 0xF) = 0xF ∧ ((op >>> 4) &&& 0xF) = 6 ∧ (op &&& 0xF) = 5 then do
    let v ← (List.range (((op >>> 8) &&& 0xF) + 1)).foldlM (fun v i => do
      let d ← io.read ((cpu.idx + i) % 65536)
      Except.ok (upd v i d)) cpu.v
    .ok ({ cpu with v := v }, io)
  else
    .error (.badOpcode op ((cpu.pc + 65534) % 65536))

/-- `Cpu::step`: tick the timers, fetch, then decode and execute. -/
def Cpu.step (cpu : Cpu) (io : Io) : Except Err (Cpu × Io) := do
  let cpu := tickTimers cpu
  let r ← cpu.fetch io
  Cpu.exec r.1 io r.2

/-- Iterate `Cpu::step` (the driver loop of `main`, without the window). -/
def stepN : Nat → Cpu → Io → Except Err (Cpu × Io)
  | 0, cpu, io => .ok (cpu, io)
  | n + 1, cpu, io =>
    match Cpu.step cpu io with
    | .error e => .error e
    | .ok r => stepN n r.1 r.2

/-- Did the run succeed? -/
def okOf : Except Err (Cpu × Io) → Bool
  | .ok _ => true
  | .error _ => false

/-- The error of a failed run, if any. -/
def errOf : Except Err (Cpu × Io) → Option Err
  | .error e => some e
  | .ok _ => none

/-- Register `i` after a successful run (0 on failure). -/
def regOf (r : Except Err (Cpu × Io)) (i : Nat) : Nat :=
  match r with
  | .ok p => p.1.v i
  | .error _ => 0

/-- Program counter after a successful run (0 on failure). -/
def pcOf : Except Err (Cpu × Io) → Nat
  | .ok p => p.1.pc
  | .error _ => 0

/-- Stack pointer after a successful run (0 on failure). -/
def spOf : Except Err (Cpu × Io) → Nat
  | .ok p => p.1.sp
  | .error _ => 0

/-- Index register after a successful run (0 on failure). -/
def idxOf : Except Err (Cpu × Io) → Nat
  | .ok p => p.1.idx
  | .error _ => 0

/-- Delay timer after a successful run (0 on failure). -/
def delayOf : Except Err (Cpu × Io) → Nat
  | .ok p => p.1.delay
  | .error _ => 0

/-- Memory byte at `a` after a successful run (0 on failure). -/
def memOf (r : Except Err (Cpu × Io)) (a : Nat) : Nat :=
  match r with
  | .ok p => p.2.mem a
  | .error _ => 0

/-- Frame-buffer pixel at `a` after a successful run (0 on failure). -/
def fbOf (r : Except Err (Cpu × Io)) (a : Nat) : Nat :=
  match r with
  | .ok p => p.2.fb a
  | .error _ => 0

/-- Which abort causes are possible in the model: the two documented
fatal conditions, plus `Vec`/slice indexing beyond the 4096-byte memory. -/
def errWithinModel : Err → Prop
  | .machineCode _ => True
  | .badOpcode _ _ => True
  | .oob a => MEM_SIZE ≤ a
  | .sliceOob i n => MEM_SIZE < i + n

/-- An all-clear frame buffer. -/
def zeroFb : Nat → Nat := fun _ => 0

/-- A frame buffer with exactly the pixel at linear index 0 set. -/
def oneSetFb : Nat → Nat := fun j => if j = 0 then 0xFFFFFF else 0

/-- A frame buffer with exactly the pixel at linear index 70 set. -/
def pix70Fb : Nat → Nat := fun j => if j = 70 then 0xFFFFFF else 0

/-- ROM consisting of a single jump-to-self instruction at 0x200. -/
def loopMem : Nat → Nat := fun a => if a = 0x200 then 0x12 else 0

/-- Io for the jump-to-self ROM. -/
def loopIo : Io := { fb := zeroFb, didDraw := false, mem := loopMem, key := none }

/-- The processor state after `j` steps of the jump-to-self ROM, starting
from reset with initial timer values `d` and `s`. -/
def midCpu (d s j : Nat) : Cpu :=
  { Cpu.new 0 with delay := d - j / 59, sound := s - j / 59, cycle := 59 - j % 59 }

/-- ROM that drives the index register to 4096 and then executes a
register-load there: 6001 (V0 := 1), AFFF (I := 0xFFF), F01E (I += V0),
F065 (load V0 from mem at I). -/
def oobMem : Nat → Nat := fun a =>
  if a = 0x200 then 0x60 else if a = 0x201 then 0x01 else
  if a = 0x202 then 0xAF else if a = 0x203 then 0xFF else
  if a = 0x204 then 0xF0 else if a = 0x205 then 0x1E else
  if a = 0x206 then 0xF0 else if a = 0x207 then 0x65 else 0

/-- Io for the add-to-index out-of-bounds ROM. -/
def oobIo : Io := { fb := zeroFb, didDraw := false, mem := oobMem, key := none }

/-- ROM whose first word is the unrecognized opcode 0xFFFF. -/
def badMem : Nat → Nat := fun a =>
  if a = 0x200 then 0xFF else if a = 0x201 then 0xFF else 0

/-- Io for the unrecognized-opcode ROM. -/
def badIo : Io := { fb := zeroFb, didDraw := false, mem := badMem, key := none }

/-- Memory holding a single two-byte instruction `hi lo` at 0x200. -/
def opMem (hi lo : Nat) : Nat → Nat := fun a =>
  if a = 0x200 then hi else if a = 0x201 then lo else 0

/-- Io whose ROM is the single instruction `hi lo` at 0x200. -/
def opIo (hi lo : Nat) : Io := { fb := zeroFb, didDraw := false, mem := opMem hi lo, key := none }

/-- CPU at reset except that register VF holds 1. -/
def vfOneCpu : Cpu := { Cpu.new 0 with v := upd zeroFb 15 1 }

/-- CPU at reset except that VF holds 1 and V0 holds 2. -/
def addCexCpu : Cpu := { Cpu.new 0 with v := upd (upd zeroFb 15 1) 0 2 }

/-- ROM for the call/return round trip: 2300 (call 0x300) at 0x200 and
00EE (return) at 0x300. -/
def callRetMem : Nat → Nat := fun a =>
  if a = 0x200 then 0x23 else if a = 0x300 then 0x00 else
  if a = 0x301 then 0xEE else 0

/-- Io for the call/return round trip ROM. -/
def callRetIo : Io := { fb := zeroFb, didDraw := false, mem := callRetMem, key := none }

/-- CPU at reset except V0 = 255 and I = 0x300 (store-bcd example). -/
def bcdCpu : Cpu := { Cpu.new 0 with v := upd zeroFb 0 255, idx := 0x300 }

/-- Io for a draw step that erases the one set pixel: D001 at 0x200 and
the sprite row 0x80 at address 0. -/
def drawStepMem : Nat → Nat := fun a =>
  if a = 0x200 then 0xD0 else if a = 0x201 then 0x01 else
  if a = 0 then 0x80 else 0

/-- Io for the erasing draw step. -/
def drawStepIo : Io := { fb := oneSetFb, didDraw := false, mem := drawStepMem, key := none }

/-- The CPU produced by the erasing draw step. -/
def drawStepCpu' : Cpu :=
  match Cpu.step (Cpu.new 0) drawStepIo with
  | .ok p => p.1
  | .error _ => Cpu.new 0

/-- The Io produced by the erasing draw step. -/
def drawStepIo' : Io :=
  match Cpu.step (Cpu.new 0) drawStepIo with
  | .ok p => p.2
  | .error _ => drawStepIo

/-- CPU at reset except V0 = 7 and I = 0x400 (register-dump example). -/
def dumpCpu : Cpu := { Cpu.new 0 with v := upd zeroFb 0 7, idx := 0x400 }

theorem ok_bind {α β : Type} (a : α) (f : α → Except Err β) :
    (Except.ok a >>= f) = f a := rfl

theorem error_bind {α β : Type} (e : Err) (f : α → Except Err β) :
    ((Except.error e : Except Err α) >>= f) = Except.error e := rfl

theorem upd_apply (f : Nat → Nat) (i val j : Nat) :
    upd f i val j = if j = i then val else f j := rfl

theorem and15_eq (n : Nat) : n &&& 15 = n % 16 := by
  have h := Nat.and_pow_two_sub_one_eq_mod n 4
  norm_num at h
  exact h

theorem and255_eq (n : Nat) : n &&& 255 = n % 256 := by
  have h := Nat.and_pow_two_sub_one_eq_mod n 8
  norm_num at h
  exact h

theorem nib0_eq (op : Nat) : op &&& 0xF = op % 16 := and15_eq op

theorem nib1_eq (op : Nat) : (op >>> 4) &&& 0xF = op / 16 % 16 := by
  rw [Nat.shiftRight_eq_div_pow, and15_eq]

theorem nib2_eq (op : Nat) : (op >>> 8) &&& 0xF = op / 256 % 16 := by
  rw [Nat.shiftRight_eq_div_pow, and15_eq]

theorem nib3_eq (op : Nat) : (op >>> 12) &&& 0xF = op / 4096 % 16 := by
  rw [Nat.shiftRight_eq_div_pow, and15_eq]

theorem nib_combine : ∀ a < 16, ∀ b < 16, ∀ c < 16,
    (a <<< 8) ||| (b <<< 4) ||| c = a * 256 + b * 16 + c := by decide

theorem shr4_eq (n : Nat) : n >>> 4 = n / 16 := by
  rw [Nat.shiftRight_eq_div_pow]

theorem shr8_eq (n : Nat) : n >>> 8 = n / 256 := by
  rw [Nat.shiftRight_eq_div_pow]

theorem shr12_eq (n : Nat) : n >>> 12 = n / 4096 := by
  rw [Nat.shiftRight_eq_div_pow]

theorem touchesB_iff (x y n pi : Nat) :
    touchesB x y n pi = true ↔ ∃ j < n, ∃ dx < 8, pi = x + dx + (y + j) * WIDTH := by
  simp [touchesB, List.any_eq_true, List.mem_range]

theorem touchesB_zero (x y pi : Nat) : touchesB x y 0 pi = false := rfl

theorem touchesB_succ (x yy n pi : Nat) :
    touchesB x yy (n + 1) pi = true ↔
      (∃ dx < 8, pi = x + dx + yy * WIDTH) ∨ touchesB x (yy + 1) n pi = true := by
  simp only [touchesB_iff, WIDTH]
  constructor
  · rintro ⟨j, hj, dx, hdx, hpi⟩
    cases j with
    | zero => exact Or.inl ⟨dx, hdx, by omega⟩
    | succ j => exact Or.inr ⟨j, by omega, dx, hdx, by omega⟩
  · rintro (⟨dx, hdx, hpi⟩ | ⟨j, hj, dx, hdx, hpi⟩)
    · exact ⟨0, by omega, dx, hdx, by omega⟩
    · exact ⟨j + 1, by omega, dx, hdx, by omega⟩

theorem sprBit_cons (x yy row : Nat) (rest : List Nat) (pi : Nat)
    (h : yy + 1 ≤ (pi - x) / WIDTH) :
    sprBit x yy (row :: rest) pi = sprBit x (yy + 1) rest pi := by
  unfold sprBit
  rw [show (pi - x) / WIDTH - yy = ((pi - x) / WIDTH - (yy + 1)) + 1 from by omega]
  rw [List.getD_cons_succ]

theorem drawBit_fb (x y dy row : Nat) (st : (Nat → Nat) × Bool) (dx pi : Nat) :
    (drawBit x y dy row st dx).1 pi =
      if pi = x + dx + (y + dy) * WIDTH ∧ pi < FB_SIZE
      then (st.1 pi ^^^ ((row >>> (7 - dx)) &&& 1) * 0xFFFFFF) &&& 0xFFFFFF
      else st.1 pi := by
  simp only [drawBit]
  by_cases h : FB_SIZE ≤ x + dx + (y + dy) * WIDTH
  · rw [if_pos h]
    rcases eq_or_ne pi (x + dx + (y + dy) * WIDTH) with he | he
    · rw [if_neg]
      rintro ⟨h1, h2⟩
      omega
    · rw [if_neg]
      rintro ⟨h1, _⟩
      exact he h1
  · rw [if_neg h]
    show upd st.1 _ _ pi = _
    rw [upd_apply]
    by_cases he : pi = x + dx + (y + dy) * WIDTH
    · rw [if_pos he, if_pos ⟨he, by omega⟩, he]
    · rw [if_neg he, if_neg (fun hc => he hc.1)]

theorem drawBit_col (x y dy row : Nat) (st : (Nat → Nat) × Bool) (dx : Nat) :
    ((drawBit x y dy row st dx).2 = true ↔
      st.2 = true ∨ (x + dx + (y + dy) * WIDTH < FB_SIZE ∧
        st.1 (x + dx + (y + dy) * WIDTH) ≠ 0 ∧
        (st.1 (x + dx + (y + dy) * WIDTH) ^^^ ((row >>> (7 - dx)) &&& 1) * 0xFFFFFF) &&& 0xFFFFFF = 0)) := by
  simp only [drawBit]
  by_cases h : FB_SIZE ≤ x + dx + (y + dy) * WIDTH
  · rw [if_pos h]
    constructor
    · exact fun hs => Or.inl hs
    · rintro (hs | ⟨h1, _⟩)
      · exact hs
      · omega
  · rw [if_neg h]
    show (st.2 || _) = true ↔ _
    simp only [Bool.or_eq_true, Bool.and_eq_true, decide_eq_true_eq]
    constructor
    · rintro (hs | ⟨h1, h2⟩)
      · exact Or.inl hs
      · exact Or.inr ⟨by omega, h1, h2⟩
    · rintro (hs | ⟨_, h1, h2⟩)
      · exact Or.inl hs
      · exact Or.inr ⟨h1, h2⟩

theorem foldl_drawBit_fb (x y dy row : Nat) :
    ∀ (L : List Nat), L.Nodup → ∀ (st : (Nat → Nat) × Bool) (pi : Nat),
      (L.foldl (drawBit x y dy row) st).1 pi =
        if (∃ dx ∈ L, pi = x + dx + (y + dy) * WIDTH) ∧ pi < FB_SIZE
        then (st.1 pi ^^^ ((row >>> (7 - (pi - x - (y + dy) * WIDTH))) &&& 1) * 0xFFFFFF) &&& 0xFFFFFF
        else st.1 pi := by
  intro L
  induction L with
  | nil =>
    intro _ st pi
    simp
  | cons dx L' ih =>
    intro hnd st pi
    have hdxL : dx ∉ L' := (List.nodup_cons.mp hnd).1
    rw [List.foldl_cons, ih (List.nodup_cons.mp hnd).2]
    simp only [drawBit_fb]
    by_cases h2 : pi = x + dx + (y + dy) * WIDTH
    · by_cases h3 : pi < FB_SIZE
      · have hnot : ¬ ∃ a ∈ L', pi = x + a + (y + dy) * WIDTH := by
          rintro ⟨a, haL, hpa⟩
          have : a = dx := by omega
          exact hdxL (this ▸ haL)
        rw [if_neg (fun hc => hnot hc.1), if_pos ⟨h2, h3⟩,
          if_pos ⟨⟨dx, List.mem_cons_self dx L', h2⟩, h3⟩]
        have : pi - x - (y + dy) * WIDTH = dx := by omega
        rw [this]
      · rw [if_neg (fun hc => h3 hc.2), if_neg (fun hc => h3 hc.2),
          if_neg (fun hc => h3 hc.2)]
    · by_cases h1 : ∃ a ∈ L', pi = x + a + (y + dy) * WIDTH
      · by_cases h3 : pi < FB_SIZE
        · rw [if_pos ⟨h1, h3⟩, if_neg (fun hc => h2 hc.1)]
          obtain ⟨a, haL, hpa⟩ := h1
          rw [if_pos ⟨⟨a, List.mem_cons_of_mem dx haL, hpa⟩, h3⟩]
        · rw [if_neg (fun hc => h3 hc.2), if_neg (fun hc => h2 hc.1),
            if_neg (fun hc => h3 hc.2)]
      · have hnone : ¬ ((∃ a ∈ dx :: L', pi = x + a + (y + dy) * WIDTH) ∧ pi < FB_SIZE) := by
          rintro ⟨⟨a, ha, hpa⟩, _⟩
          rcases List.mem_cons.mp ha with rfl | haL
          · exact h2 hpa
          · exact h1 ⟨a, haL, hpa⟩
        rw [if_neg (fun hc => h1 hc.1), if_neg (fun hc => h2 hc.1), if_neg hnone]

theorem foldl_drawBit_col (x y dy row : Nat) :
    ∀ (L : List Nat), L.Nodup → ∀ (st : (Nat → Nat) × Bool),
      ((L.foldl (drawBit x y dy row) st).2 = true ↔
        st.2 = true ∨ ∃ dx ∈ L, x + dx + (y + dy) * WIDTH < FB_SIZE ∧
          st.1 (x + dx + (y + dy) * WIDTH) ≠ 0 ∧
          (st.1 (x + dx + (y + dy) * WIDTH) ^^^ ((row >>> (7 - dx)) &&& 1) * 0xFFFFFF) &&& 0xFFFFFF = 0) := by
  intro L
  induction L with
  | nil =>
    intro _ st
    simp
  | cons dx L' ih =>
    intro hnd st
    have hdxL : dx ∉ L' := (List.nodup_cons.mp hnd).1
    have hfix : ∀ a ∈ L', (drawBit x y dy row st dx).1 (x + a + (y + dy) * WIDTH) =
        st.1 (x + a + (y + dy) * WIDTH) := by
      intro a haL
      rw [drawBit_fb]
      have hne : a ≠ dx := fun he => hdxL (he ▸ haL)
      rw [if_neg (fun hc => hne (by omega : a = dx))]
    rw [List.foldl_cons, ih (List.nodup_cons.mp hnd).2, drawBit_col]
    constructor
    · rintro ((hs | hcur) | ⟨a, haL, hfb, hne, hz⟩)
      · exact Or.inl hs
      · exact Or.inr ⟨dx, List.mem_cons_self dx L', hcur⟩
      · rw [hfix a haL] at hne hz
        exact Or.inr ⟨a, List.mem_cons_of_mem dx haL, hfb, hne, hz⟩
    · rintro (hs | ⟨a, haL, hfb, hne, hz⟩)
      · exact Or.inl (Or.inl hs)
      · rcases List.mem_cons.mp haL with rfl | haL'
        · exact Or.inl (Or.inr ⟨hfb, hne, hz⟩)
        · refine Or.inr ⟨a, haL', hfb, ?_, ?_⟩
          · rw [hfix a haL']
            exact hne
          · rw [hfix a haL']
            exact hz

theorem drawRowsAux_fb (x y : Nat) :
    ∀ (rows : List Nat) (dy : Nat) (st : (Nat → Nat) × Bool) (pi : Nat),
      (drawRowsAux x y dy rows st).1 pi =
        if touchesB x (y + dy) rows.length pi = true ∧ pi < FB_SIZE
        then (st.1 pi ^^^ sprBit x (y + dy) rows pi * 0xFFFFFF) &&& 0xFFFFFF
        else st.1 pi := by
  intro rows
  induction rows with
  | nil =>
    intro dy st pi
    simp [drawRowsAux, touchesB_zero]
  | cons row rest ih =>
    intro dy st pi
    show (drawRowsAux x y (dy + 1) rest (drawRow x y dy row st)).1 pi = _
    rw [ih (dy + 1), ← Nat.add_assoc]
    simp only [drawRow]
    rw [foldl_drawBit_fb x y dy row (List.range 8) (List.nodup_range 8) st pi]
    simp only [List.mem_range, List.length_cons]
    by_cases h3 : pi < FB_SIZE
    · by_cases hc : ∃ a < 8, pi = x + a + (y + dy) * WIDTH
      · have hr : ¬ touchesB x (y + dy + 1) rest.length pi = true := by
          intro hr
          obtain ⟨j, hj, dx', hdx', hpi'⟩ := (touchesB_iff _ _ _ _).mp hr
          obtain ⟨a, ha, hpa⟩ := hc
          simp only [WIDTH] at hpi' hpa
          omega
        rw [if_neg (fun hk => hr hk.1), if_pos ⟨hc, h3⟩]
        have htc : touchesB x (y + dy) (rest.length + 1) pi = true :=
          (touchesB_succ x (y + dy) rest.length pi).mpr (Or.inl hc)
        rw [if_pos ⟨htc, h3⟩]
        obtain ⟨a, ha, hpa⟩ := hc
        have hsb : sprBit x (y + dy) (row :: rest) pi =
            (row >>> (7 - (pi - x - (y + dy) * WIDTH))) &&& 1 := by
          unfold sprBit
          have e1 : (pi - x) / WIDTH - (y + dy) = 0 := by
            simp only [WIDTH] at hpa ⊢
            omega
          have e2 : (pi - x) % WIDTH = pi - x - (y + dy) * WIDTH := by
            simp only [WIDTH] at hpa ⊢
            omega
          rw [e1, e2, List.getD_cons_zero]
        rw [hsb]
      · by_cases hr : touchesB x (y + dy + 1) rest.length pi = true
        · rw [if_pos ⟨hr, h3⟩, if_neg (fun hk => hc hk.1)]
          have htc : touchesB x (y + dy) (rest.length + 1) pi = true :=
            (touchesB_succ x (y + dy) rest.length pi).mpr (Or.inr hr)
          rw [if_pos ⟨htc, h3⟩]
          have hsb : sprBit x (y + dy) (row :: rest) pi = sprBit x (y + dy + 1) rest pi := by
            refine sprBit_cons x (y + dy) row rest pi ?_
            obtain ⟨j, hj, dx', hdx', hpi'⟩ := (touchesB_iff _ _ _ _).mp hr
            simp only [WIDTH] at hpi' ⊢
            omega
          rw [hsb]
        · rw [if_neg (fun hk => hr hk.1), if_neg (fun hk => hc hk.1)]
          have htc : ¬ touchesB x (y + dy) (rest.length + 1) pi = true := by
            intro htc
            rcases (touchesB_succ x (y + dy) rest.length pi).mp htc with hcur | hlat
            · exact hc hcur
            · exact hr hlat
          rw [if_neg (fun hk => htc hk.1)]
    · rw [if_neg (fun hk => h3 hk.2), if_neg (fun hk => h3 hk.2),
        if_neg (fun hk => h3 hk.2)]

theorem drawRowsAux_col (x y : Nat) :
    ∀ (rows : List Nat) (dy : Nat) (st : (Nat → Nat) × Bool),
      ((drawRowsAux x y dy rows st).2 = true ↔
        st.2 = true ∨ ∃ j < rows.length, ∃ dx < 8,
          x + dx + (y + dy + j) * WIDTH < FB_SIZE ∧
          st.1 (x + dx + (y + dy + j) * WIDTH) ≠ 0 ∧
          (st.1 (x + dx + (y + dy + j) * WIDTH) ^^^ ((rows.getD j 0 >>> (7 - dx)) &&& 1) * 0xFFFFFF) &&& 0xFFFFFF = 0) := by
  intro rows
  induction rows with
  | nil =>
    intro dy st
    simp [drawRowsAux]
  | cons row rest ih =>
    intro dy st
    show ((drawRowsAux x y (dy + 1) rest (drawRow x y dy row st)).2 = true ↔ _)
    rw [ih (dy + 1)]
    simp only [drawRow, List.length_cons]
    rw [foldl_drawBit_col x y dy row (List.range 8) (List.nodup_range 8) st]
    have hfix : ∀ j dx, dx < 8 →
        (List.foldl (drawBit x y dy row) st (List.range 8)).1 (x + dx + (y + (dy + 1) + j) * WIDTH) =
        st.1 (x + dx + (y + (dy + 1) + j) * WIDTH) := by
      intro j dx hdx
      rw [foldl_drawBit_fb x y dy row (List.range 8) (List.nodup_range 8)]
      rw [if_neg]
      rintro ⟨⟨a, haL, hpa⟩, _⟩
      have ha8 : a < 8 := List.mem_range.mp haL
      simp only [WIDTH] at hpa
      omega
    constructor
    · rintro ((hs | ⟨a, haL, hq1, hq2, hq3⟩) | ⟨j, hj, dx, hdx, hfb, hne, hz⟩)
      · exact Or.inl hs
      · refine Or.inr ⟨0, by omega, a, List.mem_range.mp haL, ?_, ?_, ?_⟩
        · rw [Nat.add_zero]
          exact hq1
        · rw [Nat.add_zero]
          exact hq2
        · rw [Nat.add_zero, List.getD_cons_zero]
          exact hq3
      · rw [hfix j dx hdx] at hne hz
        refine Or.inr ⟨j + 1, by omega, dx, hdx, ?_, ?_, ?_⟩
        · rw [show y + dy + (j + 1) = y + (dy + 1) + j from by omega]
          exact hfb
        · rw [show y + dy + (j + 1) = y + (dy + 1) + j from by omega]
          exact hne
        · rw [show y + dy + (j + 1) = y + (dy + 1) + j from by omega, List.getD_cons_succ]
          exact hz
    · rintro (hs | ⟨j, hj, dx, hdx, hfb, hne, hz⟩)
      · exact Or.inl (Or.inl hs)
      · cases j with
        | zero =>
          refine Or.inl (Or.inr ⟨dx, List.mem_range.mpr hdx, ?_, ?_, ?_⟩)
          · rw [Nat.add_zero] at hfb
            exact hfb
          · rw [Nat.add_zero] at hne
            exact hne
          · rw [Nat.add_zero] at hz
            rw [List.getD_cons_zero] at hz
            exact hz
        | succ j' =>
          rw [show y + dy + (j' + 1) = y + (dy + 1) + j' from by omega] at hfb hne hz
          rw [List.getD_cons_succ] at hz
          refine Or.inr ⟨j', by omega, dx, hdx, hfb, ?_, ?_⟩
          · rw [hfix j' dx hdx]
            exact hne
          · rw [hfix j' dx hdx]
            exact hz

theorem drawRows_fb (x y : Nat) (rows : List Nat) (fb : Nat → Nat) (pi : Nat) :
    (drawRows x y rows fb).1 pi =
      if touchesB x y rows.length pi = true ∧ pi < FB_SIZE
      then (fb pi ^^^ sprBit x y rows pi * 0xFFFFFF) &&& 0xFFFFFF
      else fb pi := by
  have h := drawRowsAux_fb x y rows 0 (fb, false) pi
  simpa using h

theorem drawRows_col (x y : Nat) (rows : List Nat) (fb : Nat → Nat) :
    ((drawRows x y rows fb).2 = true ↔ ∃ j < rows.length, ∃ dx < 8,
      x + dx + (y + j) * WIDTH < FB_SIZE ∧
      fb (x + dx + (y + j) * WIDTH) ≠ 0 ∧
      (fb (x + dx + (y + j) * WIDTH) ^^^ ((rows.getD j 0 >>> (7 - dx)) &&& 1) * 0xFFFFFF) &&& 0xFFFFFF = 0) := by
  have h := drawRowsAux_col x y rows 0 (fb, false)
  simpa using h

theorem sprBit_at (x y j dx : Nat) (rows : List Nat) (hdx : dx < 8) :
    sprBit x y rows (x + dx + (y + j) * WIDTH) = (rows.getD j 0 >>> (7 - dx)) &&& 1 := by
  unfold sprBit
  have e1 : (x + dx + (y + j) * WIDTH - x) / WIDTH - y = j := by
    simp only [WIDTH]
    omega
  have e2 : (x + dx + (y + j) * WIDTH - x) % WIDTH = dx := by
    simp only [WIDTH]
    omega
  rw [e1, e2]

theorem drawRows_col_iff_erase (x y : Nat) (rows : List Nat) (fb : Nat → Nat) :
    ((drawRows x y rows fb).2 = true ↔
      ∃ pi, fb pi ≠ 0 ∧ (drawRows x y rows fb).1 pi = 0) := by
  rw [drawRows_col]
  constructor
  · rintro ⟨j, hj, dx, hdx, hfb, hne, hz⟩
    refine ⟨x + dx + (y + j) * WIDTH, hne, ?_⟩
    rw [drawRows_fb]
    have ht : touchesB x y rows.length (x + dx + (y + j) * WIDTH) = true :=
      (touchesB_iff _ _ _ _).mpr ⟨j, hj, dx, hdx, rfl⟩
    rw [if_pos ⟨ht, hfb⟩, sprBit_at x y j dx rows hdx]
    exact hz
  · rintro ⟨pi, hne, hz⟩
    rw [drawRows_fb] at hz
    by_cases hcond : touchesB x y rows.length pi = true ∧ pi < FB_SIZE
    · rw [if_pos hcond] at hz
      obtain ⟨j, hj, dx, hdx, hpi⟩ := (touchesB_iff _ _ _ _).mp hcond.1
      subst hpi
      refine ⟨j, hj, dx, hdx, hcond.2, hne, ?_⟩
      rw [← sprBit_at x y j dx rows hdx]
      exact hz
    · rw [if_neg hcond] at hz
      exact absurd hz hne

/-- C1 (counterexample): drawing the row 0xFF at origin (63, 0) writes the
in-bounds pixel of the next row at linear index 64 (target coordinate
(64, 0) is outside the grid yet is not skipped), and a bit whose target
coordinate (70, 0) is outside the grid erases the wrapped pixel at linear
index 70 and makes the draw report a collision. -/
theorem claim1_counterexample :
    (drawRows 63 0 [0xFF] zeroFb).1 64 = 0xFFFFFF ∧
    (drawRows 63 0 [0x01] pix70Fb).2 = true := by
  constructor
  · decide
  · decide

/-- C1 (amended): each of the 8×n sprite bits is XORed (masked to 24
bits) onto the frame-buffer cell at linear index x+col + (y+row)·WIDTH
whenever that index is below WIDTH·HEIGHT — so a bit whose x-coordinate
overflows the row width wraps onto a following row — and a bit is skipped
silently (no write) exactly when that linear index is ≥ WIDTH·HEIGHT. -/
theorem claim1_pixel_rule (x y : Nat) (rows : List Nat) (fb : Nat → Nat) (pi : Nat) :
    (drawRows x y rows fb).1 pi =
      if touchesB x y rows.length pi = true ∧ pi < FB_SIZE
      then (fb pi ^^^ sprBit x y rows pi * 0xFFFFFF) &&& 0xFFFFFF
      else fb pi :=
  drawRows_fb x y rows fb pi

theorem and_one_cases (z : Nat) : z &&& 1 = 0 ∨ z &&& 1 = 1 := by
  rw [Nat.and_one_is_mod]
  omega

theorem sprBit_cases (x y : Nat) (rows : List Nat) (pi : Nat) :
    sprBit x y rows pi = 0 ∨ sprBit x y rows pi = 1 :=
  and_one_cases _

/-- C9 (counterexample): the sprite [0x80] drawn at (0, 0) lies fully
inside the grid and has a set bit, yet when its one target pixel is
already set before the first draw, the second of two consecutive draws
reports no collision (the first draw cleared the pixel, so the second
sets it back and nothing transitions from set to clear). -/
theorem claim9_counterexample :
    (drawRows 0 0 [0x80] (drawRows 0 0 [0x80] oneSetFb).1).2 = false ∧
    (0x80 >>> (7 - 0)) &&& 1 = 1 ∧ oneSetFb 0 = 0xFFFFFF := by
  refine ⟨by decide, by decide, by decide⟩

/-- C9 (amended): for a sprite entirely inside the 64×32 grid drawn onto
a frame buffer whose pixels are all set or clear, drawing it twice at the
same position restores every pixel, and the second draw reports collision
true iff the sprite has at least one set bit whose target pixel was clear
before the first draw (equivalently, a bit the first draw set). -/
theorem claim9_amended (x y : Nat) (rows : List Nat) (fb : Nat → Nat)
    (hbin : ∀ j, fb j = 0 ∨ fb j = 0xFFFFFF)
    (hx : x + 7 < WIDTH) (hy : y + rows.length ≤ HEIGHT) :
    (∀ pi, (drawRows x y rows (drawRows x y rows fb).1).1 pi = fb pi) ∧
    ((drawRows x y rows (drawRows x y rows fb).1).2 = true ↔
      ∃ j < rows.length, ∃ dx < 8, (rows.getD j 0 >>> (7 - dx)) &&& 1 = 1 ∧
        fb (x + dx + (y + j) * WIDTH) = 0) := by
  constructor
  · intro pi
    rw [drawRows_fb x y rows ((drawRows x y rows fb).1) pi, drawRows_fb x y rows fb pi]
    by_cases hcond : touchesB x y rows.length pi = true ∧ pi < FB_SIZE
    · simp only [if_pos hcond]
      rcases sprBit_cases x y rows pi with hb | hb <;>
        rcases hbin pi with hf | hf <;> rw [hb, hf] <;> decide
    · simp only [if_neg hcond]
  · rw [drawRows_col x y rows ((drawRows x y rows fb).1)]
    constructor
    · rintro ⟨j, hj, dx, hdx, hfbs, hne, hz⟩
      have hpi : touchesB x y rows.length (x + dx + (y + j) * WIDTH) = true :=
        (touchesB_iff _ _ _ _).mpr ⟨j, hj, dx, hdx, rfl⟩
      have hfb1 : (drawRows x y rows fb).1 (x + dx + (y + j) * WIDTH) =
          (fb (x + dx + (y + j) * WIDTH) ^^^ ((rows.getD j 0 >>> (7 - dx)) &&& 1) * 0xFFFFFF) &&& 0xFFFFFF := by
        rw [drawRows_fb, if_pos ⟨hpi, hfbs⟩, sprBit_at x y j dx rows hdx]
      rw [hfb1] at hne hz
      refine ⟨j, hj, dx, hdx, ?_⟩
      rcases and_one_cases (rows.getD j 0 >>> (7 - dx)) with hb | hb
      · rcases hbin (x + dx + (y + j) * WIDTH) with hf | hf
        · rw [hb, hf] at hne
          exact absurd (by decide) hne
        · rw [hb, hf] at hz
          exact absurd hz (by decide)
      · rcases hbin (x + dx + (y + j) * WIDTH) with hf | hf
        · exact ⟨hb, hf⟩
        · rw [hb, hf] at hne
          exact absurd (by decide) hne
    · rintro ⟨j, hj, dx, hdx, hbit, hfz⟩
      have hfbs : x + dx + (y + j) * WIDTH < FB_SIZE := by
        simp only [WIDTH, FB_SIZE, HEIGHT] at hx hy ⊢
        omega
      have hpi : touchesB x y rows.length (x + dx + (y + j) * WIDTH) = true :=
        (touchesB_iff _ _ _ _).mpr ⟨j, hj, dx, hdx, rfl⟩
      have hfb1 : (drawRows x y rows fb).1 (x + dx + (y + j) * WIDTH) =
          (fb (x + dx + (y + j) * WIDTH) ^^^ ((rows.getD j 0 >>> (7 - dx)) &&& 1) * 0xFFFFFF) &&& 0xFFFFFF := by
        rw [drawRows_fb, if_pos ⟨hpi, hfbs⟩, sprBit_at x y j dx rows hdx]
      refine ⟨j, hj, dx, hdx, hfbs, ?_, ?_⟩
      · rw [hfb1, hbit, hfz]
        decide
      · rw [hfb1, hbit, hfz]
        decide

/-- C9 (witness): the amended theorem applied to the sprite [0x80] at
(0, 0) over an all-clear frame buffer: the second draw collides. -/
theorem claim9_witness :
    (drawRows 0 0 [0x80] (drawRows 0 0 [0x80] zeroFb).1).2 = true :=
  (claim9_amended 0 0 [0x80] zeroFb (fun _ => Or.inl rfl) (by decide)
    (by decide)).2.mpr ⟨0, by decide, 0, by decide, by decide, rfl⟩

theorem tickTimers_pc (cpu : Cpu) : (tickTimers cpu).pc = cpu.pc := by
  simp only [tickTimers]
  split <;> rfl

theorem tickTimers_v (cpu : Cpu) : (tickTimers cpu).v = cpu.v := by
  simp only [tickTimers]
  split <;> rfl

theorem tickTimers_idx (cpu : Cpu) : (tickTimers cpu).idx = cpu.idx := by
  simp only [tickTimers]
  split <;> rfl

theorem tickTimers_sp (cpu : Cpu) : (tickTimers cpu).sp = cpu.sp := by
  simp only [tickTimers]
  split <;> rfl

theorem advance_pc (cpu : Cpu) : (Cpu.advance cpu).pc = (cpu.pc + 2) % 65536 := rfl

theorem advance_v (cpu : Cpu) : (Cpu.advance cpu).v = cpu.v := rfl

theorem advance_idx (cpu : Cpu) : (Cpu.advance cpu).idx = cpu.idx := rfl

theorem advance_sp (cpu : Cpu) : (Cpu.advance cpu).sp = cpu.sp := rfl

theorem step_eq (cpu : Cpu) (io : Io) (h2 : cpu.pc + 1 < MEM_SIZE) :
    Cpu.step cpu io =
      Cpu.exec ((tickTimers cpu).advance) io
        (io.mem cpu.pc % 256 * 256 + io.mem (cpu.pc + 1) % 256) := by
  simp only [Cpu.step, Cpu.fetch, Io.read]
  rw [tickTimers_pc]
  have e1 : (cpu.pc + 1) % 65536 = cpu.pc + 1 :=
    Nat.mod_eq_of_lt (by simp only [MEM_SIZE] at h2; omega)
  rw [e1]
  rw [if_pos (show cpu.pc < MEM_SIZE by simp only [MEM_SIZE] at h2 ⊢; omega), if_pos h2]
  rfl

theorem exec_shr (cpu : Cpu) (io : Io) (x : Nat) (hx : x < 16) :
    Cpu.exec cpu io (0x8006 + 256 * x) =
      .ok ({ cpu with v := upd (upd cpu.v 0xF (cpu.v x &&& 1)) x (upd cpu.v 0xF (cpu.v x &&& 1) x >>> 1) }, io) := by
  have h0 : (0x8006 + 256 * x) &&& 0xF = 6 := by rw [nib0_eq]; omega
  have h1 : ((0x8006 + 256 * x) >>> 4) &&& 0xF = 0 := by rw [nib1_eq]; omega
  have h2 : ((0x8006 + 256 * x) >>> 8) &&& 0xF = x := by rw [nib2_eq]; omega
  have h3 : ((0x8006 + 256 * x) >>> 12) &&& 0xF = 8 := by rw [nib3_eq]; omega
  simp only [Cpu.exec, h0, h1, h2, h3]
  norm_num

theorem exec_shl (cpu : Cpu) (io : Io) (x : Nat) (hx : x < 16) :
    Cpu.exec cpu io (0x800E + 256 * x) =
      .ok ({ cpu with v := upd (upd cpu.v 0xF ((cpu.v x >>> 7) &&& 1)) x ((upd cpu.v 0xF ((cpu.v x >>> 7) &&& 1) x <<< 1) % 256) }, io) := by
  have h0 : (0x800E + 256 * x) &&& 0xF = 14 := by rw [nib0_eq]; omega
  have h1 : ((0x800E + 256 * x) >>> 4) &&& 0xF = 0 := by rw [nib1_eq]; omega
  have h2 : ((0x800E + 256 * x) >>> 8) &&& 0xF = x := by rw [nib2_eq]; omega
  have h3 : ((0x800E + 256 * x) >>> 12) &&& 0xF = 8 := by rw [nib3_eq]; omega
  simp only [Cpu.exec, h0, h1, h2, h3]
  norm_num

theorem exec_add (cpu : Cpu) (io : Io) (x y : Nat) (hx : x < 16) (hy : y < 16) :
    Cpu.exec cpu io (0x8004 + 256 * x + 16 * y) =
      .ok ({ cpu with v := upd (upd cpu.v x ((cpu.v x + cpu.v y) % 256)) 0xF (if 256 ≤ cpu.v x + cpu.v y then 1 else 0) }, io) := by
  have h0 : (0x8004 + 256 * x + 16 * y) &&& 0xF = 4 := by rw [nib0_eq]; omega
  have h1 : ((0x8004 + 256 * x + 16 * y) >>> 4) &&& 0xF = y := by rw [nib1_eq]; omega
  have h2 : ((0x8004 + 256 * x + 16 * y) >>> 8) &&& 0xF = x := by rw [nib2_eq]; omega
  have h3 : ((0x8004 + 256 * x + 16 * y) >>> 12) &&& 0xF = 8 := by rw [nib3_eq]; omega
  simp only [Cpu.exec, h0, h1, h2, h3]
  norm_num

theorem exec_subxy (cpu : Cpu) (io : Io) (x y : Nat) (hx : x < 16) (hy : y < 16) :
    Cpu.exec cpu io (0x8005 + 256 * x + 16 * y) =
      .ok ({ cpu with v := upd (upd cpu.v x ((cpu.v x + 256 - cpu.v y) % 256)) 0xF (if cpu.v x < cpu.v y then 0 else 1) }, io) := by
  have h0 : (0x8005 + 256 * x + 16 * y) &&& 0xF = 5 := by rw [nib0_eq]; omega
  have h1 : ((0x8005 + 256 * x + 16 * y) >>> 4) &&& 0xF = y := by rw [nib1_eq]; omega
  have h2 : ((0x8005 + 256 * x + 16 * y) >>> 8) &&& 0xF = x := by rw [nib2_eq]; omega
  have h3 : ((0x8005 + 256 * x + 16 * y) >>> 12) &&& 0xF = 8 := by rw [nib3_eq]; omega
  simp only [Cpu.exec, h0, h1, h2, h3]
  norm_num

theorem exec_subyx (cpu : Cpu) (io : Io) (x y : Nat) (hx : x < 16) (hy : y < 16) :
    Cpu.exec cpu io (0x8007 + 256 * x + 16 * y) =
      .ok ({ cpu with v := upd (upd cpu.v x ((cpu.v y + 256 - cpu.v x) % 256)) 0xF (if cpu.v y < cpu.v x then 0 else 1) }, io) := by
  have h0 : (0x8007 + 256 * x + 16 * y) &&& 0xF = 7 := by rw [nib0_eq]; omega
  have h1 : ((0x8007 + 256 * x + 16 * y) >>> 4) &&& 0xF = y := by rw [nib1_eq]; omega
  have h2 : ((0x8007 + 256 * x + 16 * y) >>> 8) &&& 0xF = x := by rw [nib2_eq]; omega
  have h3 : ((0x8007 + 256 * x + 16 * y) >>> 12) &&& 0xF = 8 := by rw [nib3_eq]; omega
  simp only [Cpu.exec, h0, h1, h2, h3]
  norm_num

theorem exec_jump (cpu : Cpu) (io : Io) (nnn : Nat) (h : nnn < 4096) :
    Cpu.exec cpu io (0x1000 + nnn) = .ok ({ cpu with pc := nnn }, io) := by
  have h0 : (0x1000 + nnn) &&& 0xF = nnn % 16 := by rw [nib0_eq]; omega
  have h1 : ((0x1000 + nnn) >>> 4) &&& 0xF = nnn / 16 % 16 := by rw [nib1_eq]; omega
  have h2 : ((0x1000 + nnn) >>> 8) &&& 0xF = nnn / 256 := by rw [nib2_eq]; omega
  have h3 : ((0x1000 + nnn) >>> 12) &&& 0xF = 1 := by rw [nib3_eq]; omega
  have hn : (nnn / 256) <<< 8 ||| (nnn / 16 % 16) <<< 4 ||| nnn % 16 = nnn := by
    rw [nib_combine (nnn / 256) (by omega) (nnn / 16 % 16) (by omega) (nnn % 16) (by omega)]
    omega
  simp only [Cpu.exec, h0, h1, h2, h3]
  norm_num
  rw [hn]

theorem exec_call (cpu : Cpu) (io : Io) (nnn : Nat) (h : nnn < 4096) :
    Cpu.exec cpu io (0x2000 + nnn) =
      (cpu.push io cpu.pc) >>= fun r => .ok ({ r.1 with pc := nnn }, r.2) := by
  have h0 : (0x2000 + nnn) &&& 0xF = nnn % 16 := by rw [nib0_eq]; omega
  have h1 : ((0x2000 + nnn) >>> 4) &&& 0xF = nnn / 16 % 16 := by rw [nib1_eq]; omega
  have h2 : ((0x2000 + nnn) >>> 8) &&& 0xF = nnn / 256 := by rw [nib2_eq]; omega
  have h3 : ((0x2000 + nnn) >>> 12) &&& 0xF = 2 := by rw [nib3_eq]; omega
  have hn : (nnn / 256) <<< 8 ||| (nnn / 16 % 16) <<< 4 ||| nnn % 16 = nnn := by
    rw [nib_combine (nnn / 256) (by omega) (nnn / 16 % 16) (by omega) (nnn % 16) (by omega)]
    omega
  simp only [Cpu.exec, h0, h1, h2, h3]
  norm_num
  rw [hn]

theorem exec_ret (cpu : Cpu) (io : Io) :
    Cpu.exec cpu io 0x00EE =
      (cpu.pop io) >>= fun r => .ok ({ r.1 with pc := r.2 }, io) := by
  simp only [Cpu.exec, shr4_eq, shr8_eq, shr12_eq, nib0_eq]
  norm_num

theorem exec_draw (cpu : Cpu) (io : Io) (op : Nat) (hop : op / 4096 % 16 = 0xD) :
    Cpu.exec cpu io op =
      (io.draw (cpu.v (op / 256 % 16)) (cpu.v (op / 16 % 16)) (op % 16) cpu.idx) >>= fun r =>
        .ok ({ cpu with v := upd cpu.v 0xF (if r.2 then 1 else 0) }, r.1) := by
  simp only [Cpu.exec, shr4_eq, shr8_eq, shr12_eq, nib0_eq, hop]
  norm_num

theorem exec_addI (cpu : Cpu) (io : Io) (x : Nat) (hx : x < 16) :
    Cpu.exec cpu io (0xF01E + 256 * x) =
      .ok ({ cpu with idx := (cpu.idx + cpu.v x) % 65536 }, io) := by
  have h0 : (0xF01E + 256 * x) &&& 0xF = 14 := by rw [nib0_eq]; omega
  have h1 : ((0xF01E + 256 * x) >>> 4) &&& 0xF = 1 := by rw [nib1_eq]; omega
  have h2 : ((0xF01E + 256 * x) >>> 8) &&& 0xF = x := by rw [nib2_eq]; omega
  have h3 : ((0xF01E + 256 * x) >>> 12) &&& 0xF = 15 := by rw [nib3_eq]; omega
  simp only [Cpu.exec, h0, h1, h2, h3]
  norm_num

theorem exec_bcd (cpu : Cpu) (io : Io) (x : Nat) (hx : x < 16) :
    Cpu.exec cpu io (0xF033 + 256 * x) =
      ((List.range 3).foldlM (fun p i => do
        let io ← p.2.write (((cpu.idx + 2) % 65536 + 65536 - i) % 65536) (p.1 % 10)
        Except.ok (p.1 / 10, io)) ((cpu.v x : Nat), io)) >>= fun r => .ok (cpu, r.2) := by
  have h0 : (0xF033 + 256 * x) &&& 0xF = 3 := by rw [nib0_eq]; omega
  have h1 : ((0xF033 + 256 * x) >>> 4) &&& 0xF = 3 := by rw [nib1_eq]; omega
  have h2 : ((0xF033 + 256 * x) >>> 8) &&& 0xF = x := by rw [nib2_eq]; omega
  have h3 : ((0xF033 + 256 * x) >>> 12) &&& 0xF = 15 := by rw [nib3_eq]; omega
  simp only [Cpu.exec, h0, h1, h2, h3]
  norm_num

theorem exec_dump (cpu : Cpu) (io : Io) (x : Nat) (hx : x < 16) :
    Cpu.exec cpu io (0xF055 + 256 * x) =
      ((List.range (x + 1)).foldlM (fun io i => Io.write io ((cpu.idx + i) % 65536) (cpu.v i)) io) >>= fun io => .ok (cpu, io) := by
  have h0 : (0xF055 + 256 * x) &&& 0xF = 5 := by rw [nib0_eq]; omega
  have h1 : ((0xF055 + 256 * x) >>> 4) &&& 0xF = 5 := by rw [nib1_eq]; omega
  have h2 : ((0xF055 + 256 * x) >>> 8) &&& 0xF = x := by rw [nib2_eq]; omega
  have h3 : ((0xF055 + 256 * x) >>> 12) &&& 0xF = 15 := by rw [nib3_eq]; omega
  simp only [Cpu.exec, h0, h1, h2, h3]
  norm_num

theorem exec_load (cpu : Cpu) (io : Io) (x : Nat) (hx : x < 16) :
    Cpu.exec cpu io (0xF065 + 256 * x) =
      ((List.range (x + 1)).foldlM (fun v i => do
        let d ← io.read ((cpu.idx + i) % 65536)
        Except.ok (upd v i d)) cpu.v) >>= fun v => .ok ({ cpu with v := v }, io) := by
  have h0 : (0xF065 + 256 * x) &&& 0xF = 5 := by rw [nib0_eq]; omega
  have h1 : ((0xF065 + 256 * x) >>> 4) &&& 0xF = 6 := by rw [nib1_eq]; omega
  have h2 : ((0xF065 + 256 * x) >>> 8) &&& 0xF = x := by rw [nib2_eq]; omega
  have h3 : ((0xF065 + 256 * x) >>> 12) &&& 0xF = 15 := by rw [nib3_eq]; omega
  simp only [Cpu.exec, h0, h1, h2, h3]
  norm_num

theorem okOf_ok (p : Cpu × Io) : okOf (.ok p) = true := rfl

theorem regOf_ok (p : Cpu × Io) (i : Nat) : regOf (.ok p) i = p.1.v i := rfl

theorem pcOf_ok (p : Cpu × Io) : pcOf (.ok p) = p.1.pc := rfl

theorem spOf_ok (p : Cpu × Io) : spOf (.ok p) = p.1.sp := rfl

theorem idxOf_ok (p : Cpu × Io) : idxOf (.ok p) = p.1.idx := rfl

theorem memOf_ok (p : Cpu × Io) (a : Nat) : memOf (.ok p) a = p.2.mem a := rfl

theorem fbOf_ok (p : Cpu × Io) (a : Nat) : fbOf (.ok p) a = p.2.fb a := rfl

/-- C5 (counterexample): shift-right with x = 15 (opcode 8F06).  The flag
write `v[0xF] = v[x] & 1` is immediately clobbered by `v[x] >>= 1`, which
shifts the just-written flag: with V15 = 1 before the step (pre-shift
least-significant bit 1), V15 afterwards is 0, not the pre-shift lsb. -/
theorem claim5_counterexample :
    regOf (Cpu.step vfOneCpu (opIo 0x8F 0x06)) 15 = 0 ∧
    vfOneCpu.v 15 &&& 1 = 1 ∧ okOf (Cpu.step vfOneCpu (opIo 0x8F 0x06)) = true := by
  refine ⟨by decide, by decide, by decide⟩

/-- C5 (amended): for every register Vx with x in 0..14, shift-right sets
V15 to the pre-shift least-significant bit of Vx and Vx to Vx >> 1, and
shift-left sets V15 to the pre-shift most-significant bit of Vx and Vx to
Vx << 1 wrapped to 8 bits; for x = 15 the `v[x]` assignment is applied to
the just-written flag, so this description does not hold there. -/
theorem claim5_amended :
    (∀ (cpu : Cpu) (io : Io) (x : Nat), x < 15 → cpu.pc + 1 < MEM_SIZE →
      io.mem cpu.pc = 0x80 + x → io.mem (cpu.pc + 1) = 0x06 →
      regOf (Cpu.step cpu io) 15 = cpu.v x &&& 1 ∧
      regOf (Cpu.step cpu io) x = cpu.v x >>> 1 ∧
      okOf (Cpu.step cpu io) = true) ∧
    (∀ (cpu : Cpu) (io : Io) (x : Nat), x < 15 → cpu.pc + 1 < MEM_SIZE →
      io.mem cpu.pc = 0x80 + x → io.mem (cpu.pc + 1) = 0x0E →
      regOf (Cpu.step cpu io) 15 = (cpu.v x >>> 7) &&& 1 ∧
      regOf (Cpu.step cpu io) x = (cpu.v x <<< 1) % 256 ∧
      okOf (Cpu.step cpu io) = true) := by
  constructor
  · intro cpu io x hx hpc hm1 hm2
    rw [step_eq cpu io hpc, hm1, hm2]
    rw [show (0x80 + x) % 256 * 256 + 0x06 % 256 = 0x8006 + 256 * x from by omega]
    rw [exec_shr _ io x (by omega), advance_v, tickTimers_v]
    refine ⟨?_, ?_, rfl⟩
    · rw [regOf_ok]
      show upd (upd cpu.v 0xF (cpu.v x &&& 1)) x (upd cpu.v 0xF (cpu.v x &&& 1) x >>> 1) 15 = _
      simp [upd_apply, show x ≠ 15 from by omega, show (15 : Nat) ≠ x from by omega]
    · rw [regOf_ok]
      show upd (upd cpu.v 0xF (cpu.v x &&& 1)) x (upd cpu.v 0xF (cpu.v x &&& 1) x >>> 1) x = _
      simp [upd_apply, show x ≠ 15 from by omega, show (15 : Nat) ≠ x from by omega]
  · intro cpu io x hx hpc hm1 hm2
    rw [step_eq cpu io hpc, hm1, hm2]
    rw [show (0x80 + x) % 256 * 256 + 0x0E % 256 = 0x800E + 256 * x from by omega]
    rw [exec_shl _ io x (by omega), advance_v, tickTimers_v]
    refine ⟨?_, ?_, rfl⟩
    · rw [regOf_ok]
      show upd (upd cpu.v 0xF ((cpu.v x >>> 7) &&& 1)) x ((upd cpu.v 0xF ((cpu.v x >>> 7) &&& 1) x <<< 1) % 256) 15 = _
      simp [upd_apply, show x ≠ 15 from by omega, show (15 : Nat) ≠ x from by omega]
    · rw [regOf_ok]
      show upd (upd cpu.v 0xF ((cpu.v x >>> 7) &&& 1)) x ((upd cpu.v 0xF ((cpu.v x >>> 7) &&& 1) x <<< 1) % 256) x = _
      simp [upd_apply, show x ≠ 15 from by omega, show (15 : Nat) ≠ x from by omega]

/-- C5 (witness): the amended theorem at x = 0 with V0 = 7 on the
single-instruction ROM 8006. -/
theorem claim5_witness :
    regOf (Cpu.step dumpCpu (opIo 0x80 0x06)) 15 = dumpCpu.v 0 &&& 1 ∧
    regOf (Cpu.step dumpCpu (opIo 0x80 0x06)) 0 = dumpCpu.v 0 >>> 1 ∧
    okOf (Cpu.step dumpCpu (opIo 0x80 0x06)) = true :=
  claim5_amended.1 dumpCpu (opIo 0x80 0x06) 0 (by decide) (by decide) (by decide) (by decide)

/-- C6 (counterexample): add-registers with x = 15 (opcode 8F04) and
V15 = 1, V0 = 2.  The sum 3 is written into V15 and then overwritten by
the carry flag 0, so V15 ends as 0 and not as (Vx + Vy) mod 256 = 3. -/
theorem claim6_counterexample :
    regOf (Cpu.step addCexCpu (opIo 0x8F 0x04)) 15 = 0 ∧
    (addCexCpu.v 15 + addCexCpu.v 0) % 256 = 3 ∧
    okOf (Cpu.step addCexCpu (opIo 0x8F 0x04)) = true := by
  refine ⟨by decide, by decide, by decide⟩

/-- C6 (amended): for registers Vx, Vy holding 8-bit values with x in
0..14 (any y), add-registers stores (Vx + Vy) mod 256 into Vx and sets
V15 to 1 iff the unsigned sum exceeds 255; sub-registers-xy stores
(Vx − Vy) mod 256 with V15 = 0 iff Vx < Vy; sub-registers-yx stores
(Vy − Vx) mod 256 with V15 = 0 iff Vy < Vx.  For x = 15 the flag
assignment overwrites the arithmetic result. -/
theorem claim6_amended :
    (∀ (cpu : Cpu) (io : Io) (x y : Nat), x < 15 → y < 16 →
      cpu.v x < 256 → cpu.v y < 256 → cpu.pc + 1 < MEM_SIZE →
      io.mem cpu.pc = 0x80 + x → io.mem (cpu.pc + 1) = 16 * y + 4 →
      regOf (Cpu.step cpu io) x = (cpu.v x + cpu.v y) % 256 ∧
      regOf (Cpu.step cpu io) 15 = (if 256 ≤ cpu.v x + cpu.v y then 1 else 0) ∧
      okOf (Cpu.step cpu io) = true) ∧
    (∀ (cpu : Cpu) (io : Io) (x y : Nat), x < 15 → y < 16 →
      cpu.v x < 256 → cpu.v y < 256 → cpu.pc + 1 < MEM_SIZE →
      io.mem cpu.pc = 0x80 + x → io.mem (cpu.pc + 1) = 16 * y + 5 →
      regOf (Cpu.step cpu io) x = (cpu.v x + 256 - cpu.v y) % 256 ∧
      regOf (Cpu.step cpu io) 15 = (if cpu.v x < cpu.v y then 0 else 1) ∧
      okOf (Cpu.step cpu io) = true) ∧
    (∀ (cpu : Cpu) (io : Io) (x y : Nat), x < 15 → y < 16 →
      cpu.v x < 256 → cpu.v y < 256 → cpu.pc + 1 < MEM_SIZE →
      io.mem cpu.pc = 0x80 + x → io.mem (cpu.pc + 1) = 16 * y + 7 →
      regOf (Cpu.step cpu io) x = (cpu.v y + 256 - cpu.v x) % 256 ∧
      regOf (Cpu.step cpu io) 15 = (if cpu.v y < cpu.v x then 0 else 1) ∧
      okOf (Cpu.step cpu io) = true) := by
  refine ⟨?_, ?_, ?_⟩
  · intro cpu io x y hx hy hvx hvy hpc hm1 hm2
    rw [step_eq cpu io hpc, hm1, hm2]
    rw [show (0x80 + x) % 256 * 256 + (16 * y + 4) % 256 = 0x8004 + 256 * x + 16 * y from by omega]
    rw [exec_add _ io x y (by omega) hy, advance_v, tickTimers_v]
    refine ⟨?_, ?_, rfl⟩
    · rw [regOf_ok]
      show upd (upd cpu.v x ((cpu.v x + cpu.v y) % 256)) 0xF (if 256 ≤ cpu.v x + cpu.v y then 1 else 0) x = _
      simp [upd_apply, show x ≠ 15 from by omega]
    · rw [regOf_ok]
      show upd (upd cpu.v x ((cpu.v x + cpu.v y) % 256)) 0xF (if 256 ≤ cpu.v x + cpu.v y then 1 else 0) 15 = _
      simp [upd_apply]
  · intro cpu io x y hx hy hvx hvy hpc hm1 hm2
    rw [step_eq cpu io hpc, hm1, hm2]
    rw [show (0x80 + x) % 256 * 256 + (16 * y + 5) % 256 = 0x8005 + 256 * x + 16 * y from by omega]
    rw [exec_subxy _ io x y (by omega) hy, advance_v, tickTimers_v]
    refine ⟨?_, ?_, rfl⟩
    · rw [regOf_ok]
      show upd (upd cpu.v x ((cpu.v x + 256 - cpu.v y) % 256)) 0xF (if cpu.v x < cpu.v y then 0 else 1) x = _
      simp [upd_apply, show x ≠ 15 from by omega]
    · rw [regOf_ok]
      show upd (upd cpu.v x ((cpu.v x + 256 - cpu.v y) % 256)) 0xF (if cpu.v x < cpu.v y then 0 else 1) 15 = _
      simp [upd_apply]
  · intro cpu io x y hx hy hvx hvy hpc hm1 hm2
    rw [step_eq cpu io hpc, hm1, hm2]
    rw [show (0x80 + x) % 256 * 256 + (16 * y + 7) % 256 = 0x8007 + 256 * x + 16 * y from by omega]
    rw [exec_subyx _ io x y (by omega) hy, advance_v, tickTimers_v]
    refine ⟨?_, ?_, rfl⟩
    · rw [regOf_ok]
      show upd (upd cpu.v x ((cpu.v y + 256 - cpu.v x) % 256)) 0xF (if cpu.v y < cpu.v x then 0 else 1) x = _
      simp [upd_apply, show x ≠ 15 from by omega]
    · rw [regOf_ok]
      show upd (upd cpu.v x ((cpu.v y + 256 - cpu.v x) % 256)) 0xF (if cpu.v y < cpu.v x then 0 else 1) 15 = _
      simp [upd_apply]

/-- C6 (witness): the amended theorem's add part at x = y = 0 with
V0 = 7 on the single-instruction ROM 8004. -/
theorem claim6_witness :
    regOf (Cpu.step dumpCpu (opIo 0x80 0x04)) 0 = (dumpCpu.v 0 + dumpCpu.v 0) % 256 ∧
    regOf (Cpu.step dumpCpu (opIo 0x80 0x04)) 15 = (if 256 ≤ dumpCpu.v 0 + dumpCpu.v 0 then 1 else 0) ∧
    okOf (Cpu.step dumpCpu (opIo 0x80 0x04)) = true :=
  claim6_amended.1 dumpCpu (opIo 0x80 0x04) 0 0 (by decide) (by decide) (by decide)
    (by decide) (by decide) (by decide) (by decide)

theorem write_ok (io : Io) (addr data : Nat) (h : addr < MEM_SIZE) :
    Io.write io addr data = .ok { io with mem := upd io.mem addr (data % 256) } := by
  unfold Io.write
  rw [if_pos h]

/-- C8: store-bcd writes the hundreds digit of Vx at the index register,
the tens digit at index+1 and the ones digit at index+2, and leaves the
index register unchanged. -/
theorem claim8_bcd (cpu : Cpu) (io : Io) (x : Nat) (hx : x < 16)
    (hv : cpu.v x < 256) (hpc : cpu.pc + 1 < MEM_SIZE) (hidx : cpu.idx + 2 < MEM_SIZE)
    (hm1 : io.mem cpu.pc = 0xF0 + x) (hm2 : io.mem (cpu.pc + 1) = 0x33) :
    okOf (Cpu.step cpu io) = true ∧
    idxOf (Cpu.step cpu io) = cpu.idx ∧
    memOf (Cpu.step cpu io) cpu.idx = cpu.v x / 100 ∧
    memOf (Cpu.step cpu io) (cpu.idx + 1) = cpu.v x / 10 % 10 ∧
    memOf (Cpu.step cpu io) (cpu.idx + 2) = cpu.v x % 10 := by
  rw [step_eq cpu io hpc, hm1, hm2]
  rw [show (0xF0 + x) % 256 * 256 + 0x33 % 256 = 0xF033 + 256 * x from by omega]
  rw [exec_bcd _ io x hx, advance_v, tickTimers_v, advance_idx, tickTimers_idx]
  rw [show List.range 3 = [0, 1, 2] from by decide]
  simp only [List.foldlM_cons, List.foldlM_nil]
  simp only [MEM_SIZE] at hidx
  rw [write_ok _ _ _ (by simp only [MEM_SIZE]; omega)]
  simp only [ok_bind]
  rw [write_ok _ _ _ (by simp only [MEM_SIZE]; omega)]
  simp only [ok_bind]
  rw [write_ok _ _ _ (by simp only [MEM_SIZE]; omega)]
  simp only [ok_bind, pure_bind]
  have ha0 : ((cpu.idx + 2) % 65536 + 65536 - 0) % 65536 = cpu.idx + 2 := by omega
  have ha1 : ((cpu.idx + 2) % 65536 + 65536 - 1) % 65536 = cpu.idx + 1 := by omega
  have ha2 : ((cpu.idx + 2) % 65536 + 65536 - 2) % 65536 = cpu.idx := by omega
  rw [ha0, ha1, ha2]
  refine ⟨rfl, ?_, ?_, ?_, ?_⟩
  · rw [idxOf_ok, advance_idx, tickTimers_idx]
  · rw [memOf_ok]
    simp only [upd_apply, if_true]
    omega
  · rw [memOf_ok]
    simp [upd_apply, show cpu.idx + 1 ≠ cpu.idx from by omega]
    omega
  · rw [memOf_ok]
    simp [upd_apply, show cpu.idx + 2 ≠ cpu.idx from by omega, show cpu.idx + 2 ≠ cpu.idx + 1 from by omega]
    omega

/-- C8 (witness): store-bcd of V0 = 255 with I = 0x300 writes the bytes
255/100 = 2, 255/10 mod 10 = 5, 255 mod 10 = 5 at 0x300..0x302. -/
theorem claim8_witness :
    okOf (Cpu.step bcdCpu (opIo 0xF0 0x33)) = true ∧
    idxOf (Cpu.step bcdCpu (opIo 0xF0 0x33)) = bcdCpu.idx ∧
    memOf (Cpu.step bcdCpu (opIo 0xF0 0x33)) bcdCpu.idx = bcdCpu.v 0 / 100 ∧
    memOf (Cpu.step bcdCpu (opIo 0xF0 0x33)) (bcdCpu.idx + 1) = bcdCpu.v 0 / 10 % 10 ∧
    memOf (Cpu.step bcdCpu (opIo 0xF0 0x33)) (bcdCpu.idx + 2) = bcdCpu.v 0 % 10 :=
  claim8_bcd bcdCpu (opIo 0xF0 0x33) 0 (by decide) (by decide) (by decide)
    (by decide) (by decide) (by decide)

theorem read_ok (io : Io) (addr : Nat) (h : addr < MEM_SIZE) :
    Io.read io addr = .ok (io.mem addr % 256) := by
  unfold Io.read
  rw [if_pos h]

theorem foldlM_writes_ok :
    ∀ (l : List Nat) (io : Io) (addr data : Nat → Nat),
      (∀ i ∈ l, addr i < MEM_SIZE) →
      ∃ io', (l.foldlM (fun io i => Io.write io (addr i) (data i)) io) = .ok io' := by
  intro l
  induction l with
  | nil =>
    intro io _ _ _
    exact ⟨io, rfl⟩
  | cons a l' ih =>
    intro io addr data h
    rw [List.foldlM_cons, write_ok _ _ _ (h a (List.mem_cons_self a l')), ok_bind]
    exact ih _ addr data (fun i hi => h i (List.mem_cons_of_mem a hi))

theorem foldlM_reads_ok :
    ∀ (l : List Nat) (v : Nat → Nat) (io : Io) (addr : Nat → Nat),
      (∀ i ∈ l, addr i < MEM_SIZE) →
      ∃ v', (l.foldlM (fun v i => do
        let d ← io.read (addr i)
        Except.ok (upd v i d)) v) = .ok v' := by
  intro l
  induction l with
  | nil =>
    intro v _ _ _
    exact ⟨v, rfl⟩
  | cons a l' ih =>
    intro v io addr h
    rw [List.foldlM_cons, read_ok io _ (h a (List.mem_cons_self a l')), ok_bind]
    exact ih _ io addr (fun i hi => h i (List.mem_cons_of_mem a hi))

/-- C10: register-dump and register-load address memory at index + i but
never write the index register back: after either instruction the index
register is unchanged. -/
theorem claim10_regdump_load :
    (∀ (cpu : Cpu) (io : Io) (x : Nat), x < 16 → cpu.pc + 1 < MEM_SIZE →
      cpu.idx + x < MEM_SIZE →
      io.mem cpu.pc = 0xF0 + x → io.mem (cpu.pc + 1) = 0x55 →
      okOf (Cpu.step cpu io) = true ∧ idxOf (Cpu.step cpu io) = cpu.idx) ∧
    (∀ (cpu : Cpu) (io : Io) (x : Nat), x < 16 → cpu.pc + 1 < MEM_SIZE →
      cpu.idx + x < MEM_SIZE →
      io.mem cpu.pc = 0xF0 + x → io.mem (cpu.pc + 1) = 0x65 →
      okOf (Cpu.step cpu io) = true ∧ idxOf (Cpu.step cpu io) = cpu.idx) := by
  constructor
  · intro cpu io x hx hpc hidx hm1 hm2
    rw [step_eq cpu io hpc, hm1, hm2]
    rw [show (0xF0 + x) % 256 * 256 + 0x55 % 256 = 0xF055 + 256 * x from by omega]
    rw [exec_dump _ io x hx, advance_idx, tickTimers_idx, advance_v, tickTimers_v]
    obtain ⟨io', hio'⟩ := foldlM_writes_ok (List.range (x + 1)) io
      (fun i => (cpu.idx + i) % 65536) (fun i => cpu.v i)
      (fun i hi => by
        have := List.mem_range.mp hi
        simp only [MEM_SIZE] at hidx ⊢
        omega)
    rw [hio', ok_bind]
    exact ⟨rfl, by rw [idxOf_ok, advance_idx, tickTimers_idx]⟩
  · intro cpu io x hx hpc hidx hm1 hm2
    rw [step_eq cpu io hpc, hm1, hm2]
    rw [show (0xF0 + x) % 256 * 256 + 0x65 % 256 = 0xF065 + 256 * x from by omega]
    rw [exec_load _ io x hx, advance_idx, tickTimers_idx, advance_v, tickTimers_v]
    obtain ⟨v', hv'⟩ := foldlM_reads_ok (List.range (x + 1)) cpu.v io
      (fun i => (cpu.idx + i) % 65536)
      (fun i hi => by
        have := List.mem_range.mp hi
        simp only [MEM_SIZE] at hidx ⊢
        omega)
    rw [hv', ok_bind]
    exact ⟨rfl, by rw [idxOf_ok]⟩

/-- C10 (witness): register-dump of V0..V2 with I = 0x400 succeeds and
leaves the index register at 0x400. -/
theorem claim10_witness :
    okOf (Cpu.step dumpCpu (opIo 0xF2 0x55)) = true ∧
    idxOf (Cpu.step dumpCpu (opIo 0xF2 0x55)) = dumpCpu.idx :=
  claim10_regdump_load.1 dumpCpu (opIo 0xF2 0x55) 2 (by decide) (by decide)
    (by decide) (by decide) (by decide)

theorem step_call (cpu : Cpu) (io : Io) (nnn : Nat) (hn : nnn < 4096)
    (hpc : cpu.pc + 1 < MEM_SIZE) (hsp1 : cpu.sp < MEM_SIZE) (hsp2 : 1 ≤ cpu.sp)
    (hm1 : io.mem cpu.pc = 0x20 + nnn / 256) (hm2 : io.mem (cpu.pc + 1) = nnn % 256) :
    Cpu.step cpu io = .ok
      ({ (tickTimers cpu).advance with sp := (cpu.sp + 65534) % 65536, pc := nnn },
       { io with mem := upd (upd io.mem cpu.sp ((cpu.pc + 2) % 256)) (cpu.sp - 1) ((cpu.pc + 2) / 256) }) := by
  rw [step_eq cpu io hpc, hm1, hm2]
  rw [show (0x20 + nnn / 256) % 256 * 256 + nnn % 256 % 256 = 0x2000 + nnn from by omega]
  rw [exec_call _ io nnn hn]
  simp only [Cpu.push]
  rw [advance_sp, tickTimers_sp, advance_pc, tickTimers_pc]
  rw [show (cpu.pc + 2) % 65536 = cpu.pc + 2 from by simp only [MEM_SIZE] at hpc; omega]
  rw [write_ok _ _ _ hsp1, ok_bind]
  rw [show (cpu.sp + 65535) % 65536 = cpu.sp - 1 from by simp only [MEM_SIZE] at hsp1; omega]
  rw [write_ok _ _ _ (by simp only [MEM_SIZE] at hsp1 ⊢; omega), ok_bind, ok_bind]
  rw [show (cpu.pc + 2 &&& 0xFF) % 256 = (cpu.pc + 2) % 256 from by rw [and255_eq]; omega]
  rw [show ((cpu.pc + 2) >>> 8 &&& 0xFF) % 256 = (cpu.pc + 2) / 256 from by
    rw [shr8_eq, and255_eq]
    simp only [MEM_SIZE] at hpc
    omega]

theorem step_ret (cpu : Cpu) (io : Io) (hpc : cpu.pc + 1 < MEM_SIZE)
    (hsp : cpu.sp + 2 < MEM_SIZE)
    (hm1 : io.mem cpu.pc = 0x00) (hm2 : io.mem (cpu.pc + 1) = 0xEE) :
    Cpu.step cpu io = .ok
      ({ (tickTimers cpu).advance with sp := cpu.sp + 2, pc := io.mem (cpu.sp + 1) % 256 * 256 + io.mem (cpu.sp + 2) % 256 }, io) := by
  rw [step_eq cpu io hpc, hm1, hm2]
  rw [show (0x00 : Nat) % 256 * 256 + 0xEE % 256 = 0x00EE from by omega]
  rw [exec_ret]
  simp only [Cpu.pop]
  rw [advance_sp, tickTimers_sp]
  rw [show (cpu.sp + 2) % 65536 = cpu.sp + 2 from by simp only [MEM_SIZE] at hsp; omega]
  rw [read_ok _ _ hsp, ok_bind]
  rw [show (cpu.sp + 2 + 65535) % 65536 = cpu.sp + 1 from by simp only [MEM_SIZE] at hsp; omega]
  rw [read_ok _ _ (by simp only [MEM_SIZE] at hsp ⊢; omega), ok_bind, ok_bind]

theorem stepN_two_ok (cpu c1 c2 : Cpu) (io io1 io2 : Io)
    (h1 : Cpu.step cpu io = .ok (c1, io1)) (h2 : Cpu.step c1 io1 = .ok (c2, io2)) :
    stepN 2 cpu io = .ok (c2, io2) := by
  have e1 : stepN 2 cpu io =
      (match Cpu.step cpu io with
        | .error e => .error e
        | .ok r => stepN 1 r.1 r.2) := rfl
  rw [e1, h1]
  have e2 : (match (Except.ok (c1, io1) : Except Err (Cpu × Io)) with
        | .error e => (Except.error e : Except Err (Cpu × Io))
        | .ok r => stepN 1 r.1 r.2) =
      (match Cpu.step c1 io1 with
        | .error e => (Except.error e : Except Err (Cpu × Io))
        | .ok r => stepN 0 r.1 r.2) := rfl
  rw [e2, h2]
  rfl

/-- C7: a call instruction 2nnn followed (with the stack region otherwise
untouched) by the return instruction at nnn restores the program counter
to the address just after the call and the stack pointer to its value
before the call. -/
theorem claim7_call_ret (cpu : Cpu) (io : Io) (nnn : Nat)
    (hpc : cpu.pc + 1 < MEM_SIZE) (hnnn : nnn + 1 < MEM_SIZE)
    (hsp1 : cpu.sp < MEM_SIZE) (hsp2 : 2 ≤ cpu.sp)
    (hd1 : nnn ≠ cpu.sp) (hd2 : nnn ≠ cpu.sp - 1)
    (hd3 : nnn + 1 ≠ cpu.sp) (hd4 : nnn + 1 ≠ cpu.sp - 1)
    (hm1 : io.mem cpu.pc = 0x20 + nnn / 256) (hm2 : io.mem (cpu.pc + 1) = nnn % 256)
    (hm3 : io.mem nnn = 0x00) (hm4 : io.mem (nnn + 1) = 0xEE) :
    okOf (stepN 2 cpu io) = true ∧
    pcOf (stepN 2 cpu io) = cpu.pc + 2 ∧
    spOf (stepN 2 cpu io) = cpu.sp := by
  have h1 := step_call cpu io nnn (by simp only [MEM_SIZE] at hnnn; omega) hpc hsp1
    (by omega) hm1 hm2
  rw [show (cpu.sp + 65534) % 65536 = cpu.sp - 2 from by
    simp only [MEM_SIZE] at hsp1; omega] at h1
  have h2 := step_ret
    ({ (tickTimers cpu).advance with sp := cpu.sp - 2, pc := nnn })
    ({ io with mem := upd (upd io.mem cpu.sp ((cpu.pc + 2) % 256)) (cpu.sp - 1) ((cpu.pc + 2) / 256) })
    (hnnn)
    (by show cpu.sp - 2 + 2 < MEM_SIZE; simp only [MEM_SIZE] at hsp1 ⊢; omega)
    (by show upd (upd io.mem cpu.sp ((cpu.pc + 2) % 256)) (cpu.sp - 1) ((cpu.pc + 2) / 256) nnn = 0x00
        simp only [upd_apply]
        rw [if_neg hd2, if_neg hd1]
        exact hm3)
    (by show upd (upd io.mem cpu.sp ((cpu.pc + 2) % 256)) (cpu.sp - 1) ((cpu.pc + 2) / 256) (nnn + 1) = 0xEE
        simp only [upd_apply]
        rw [if_neg hd4, if_neg hd3]
        exact hm4)
  rw [stepN_two_ok cpu _ _ io _ _ h1 h2]
  refine ⟨rfl, ?_, ?_⟩
  · rw [pcOf_ok]
    show upd (upd io.mem cpu.sp ((cpu.pc + 2) % 256)) (cpu.sp - 1) ((cpu.pc + 2) / 256) (cpu.sp - 2 + 1) % 256 * 256 + upd (upd io.mem cpu.sp ((cpu.pc + 2) % 256)) (cpu.sp - 1) ((cpu.pc + 2) / 256) (cpu.sp - 2 + 2) % 256 = cpu.pc + 2
    rw [show cpu.sp - 2 + 1 = cpu.sp - 1 from by omega,
      show cpu.sp - 2 + 2 = cpu.sp from by omega]
    simp [upd_apply, show cpu.sp ≠ cpu.sp - 1 from by omega]
    simp only [MEM_SIZE] at hpc
    omega
  · rw [spOf_ok]
    show cpu.sp - 2 + 2 = cpu.sp
    omega

/-- C7 (witness): from reset (pc = 0x200, sp = 0xEFF), call 0x300 and
return: two steps later pc = 0x202 and sp = 0xEFF again. -/
theorem claim7_witness :
    okOf (stepN 2 (Cpu.new 0) callRetIo) = true ∧
    pcOf (stepN 2 (Cpu.new 0) callRetIo) = (Cpu.new 0).pc + 2 ∧
    spOf (stepN 2 (Cpu.new 0) callRetIo) = (Cpu.new 0).sp :=
  claim7_call_ret (Cpu.new 0) callRetIo 0x300 (by decide) (by decide) (by decide)
    (by decide) (by decide) (by decide) (by decide) (by decide) (by decide)
    (by decide) (by decide) (by decide)

/-- C2: a draw's collision result is true iff some pixel transitions from
set (nonzero) to clear (zero) as a result of the blit, and the draw
instruction stores 1 into V15 exactly when that happens, else 0. -/
theorem claim2_collision_rule :
    (∀ (x y : Nat) (rows : List Nat) (fb : Nat → Nat),
      ((drawRows x y rows fb).2 = true ↔
        ∃ pi, fb pi ≠ 0 ∧ (drawRows x y rows fb).1 pi = 0)) ∧
    (∀ (cpu : Cpu) (io : Io) (c' : Cpu) (io' : Io),
      Cpu.step cpu io = .ok (c', io') → io.mem cpu.pc % 256 / 16 = 0xD →
      ((c'.v 15 = 1 ∨ c'.v 15 = 0) ∧
       (c'.v 15 = 1 ↔ ∃ pi, io.fb pi ≠ 0 ∧ io'.fb pi = 0))) := by
  constructor
  · exact fun x y rows fb => drawRows_col_iff_erase x y rows fb
  · intro cpu io c' io' h hop
    simp only [Cpu.step] at h
    cases hf : Cpu.fetch (tickTimers cpu) io with
    | error e =>
      rw [hf, error_bind] at h
      simp at h
    | ok r =>
      rw [hf, ok_bind] at h
      simp only [Cpu.fetch, Io.read] at hf
      rw [tickTimers_pc] at hf
      by_cases hb1 : cpu.pc < MEM_SIZE
      · rw [if_pos hb1, ok_bind] at hf
        by_cases hb2 : (cpu.pc + 1) % 65536 < MEM_SIZE
        · rw [if_pos hb2, ok_bind] at hf
          injection hf with hf'
          subst hf'
          have ho3 : (io.mem cpu.pc % 256 * 256 + io.mem ((cpu.pc + 1) % 65536) % 256) / 4096 % 16 = 0xD := by
            omega
          rw [exec_draw _ io _ ho3] at h
          cases hd : Io.draw io
              ((tickTimers cpu).advance.v ((io.mem cpu.pc % 256 * 256 + io.mem ((cpu.pc + 1) % 65536) % 256) / 256 % 16))
              ((tickTimers cpu).advance.v ((io.mem cpu.pc % 256 * 256 + io.mem ((cpu.pc + 1) % 65536) % 256) / 16 % 16))
              ((io.mem cpu.pc % 256 * 256 + io.mem ((cpu.pc + 1) % 65536) % 256) % 16)
              ((tickTimers cpu).advance.idx) with
          | error e =>
            rw [hd, error_bind] at h
            simp at h
          | ok r2 =>
            rw [hd, ok_bind] at h
            simp only [Io.draw] at hd
            split at hd
            · injection hd with hd'
              subst hd'
              injection h with h'
              rw [Prod.mk.injEq] at h'
              obtain ⟨hc, hio⟩ := h'
              subst hc
              subst hio
              constructor
              · show upd ((tickTimers cpu).advance.v) 15 _ 15 = 1 ∨ upd ((tickTimers cpu).advance.v) 15 _ 15 = 0
                simp only [upd_apply, if_pos rfl]
                cases (drawRows _ _ _ io.fb).2
                · exact Or.inr rfl
                · exact Or.inl rfl
              · show upd ((tickTimers cpu).advance.v) 15 _ 15 = 1 ↔ _
                simp only [upd_apply, if_pos rfl]
                rw [← drawRows_col_iff_erase]
                cases hcol : (drawRows _ _ _ io.fb).2
                · simp [hcol]
                · simp [hcol]
            · exact absurd hd (by simp)
        · rw [if_neg hb2, error_bind] at hf
          simp at hf
      · rw [if_neg hb1, error_bind] at hf
        simp at hf

/-- C2 (witness): the draw step D001 over a frame buffer whose pixel 0 is
set, with sprite row 0x80 at address 0, erases that pixel and stores 1 in
V15. -/
theorem claim2_witness : drawStepCpu'.v 15 = 1 :=
  ((claim2_collision_rule.2 (Cpu.new 0) drawStepIo drawStepCpu' drawStepIo' rfl
    (by decide)).2).mpr ⟨0, by decide, by decide⟩

theorem cpuFieldsEq (a b : Cpu) (h1 : a.rand = b.rand) (h2 : a.v = b.v)
    (h3 : a.idx = b.idx) (h4 : a.sp = b.sp) (h5 : a.pc = b.pc)
    (h6 : a.delay = b.delay) (h7 : a.sound = b.sound) (h8 : a.cycle = b.cycle) :
    a = b := by
  cases a
  cases b
  simp only [] at h1 h2 h3 h4 h5 h6 h7 h8
  subst h1 h2 h3 h4 h5 h6 h7 h8
  rfl

theorem step_loop (d s j : Nat) :
    Cpu.step (midCpu d s j) loopIo = .ok (midCpu d s (j + 1), loopIo) := by
  rw [step_eq (midCpu d s j) loopIo (by show (0x200 : Nat) + 1 < MEM_SIZE; decide)]
  rw [show (midCpu d s j).pc = 0x200 from rfl]
  rw [show loopIo.mem 0x200 = 0x12 from rfl, show loopIo.mem (0x200 + 1) = 0 from rfl]
  rw [show (0x12 % 256 * 256 + 0 % 256 : Nat) = 0x1200 from by norm_num]
  rw [show (0x1200 : Nat) = 0x1000 + 0x200 from by norm_num]
  rw [exec_jump _ loopIo 0x200 (by norm_num)]
  refine congrArg Except.ok (Prod.ext ?_ rfl)
  simp only [tickTimers]
  rw [show (midCpu d s j).cycle = 59 - j % 59 from rfl]
  by_cases hj : j % 59 = 58
  · rw [if_pos (by omega)]
    refine cpuFieldsEq _ _ rfl rfl rfl rfl rfl ?_ ?_ ?_
    · show (midCpu d s j).delay - 1 = d - (j + 1) / 59
      show d - j / 59 - 1 = d - (j + 1) / 59
      omega
    · show (midCpu d s j).sound - 1 = s - (j + 1) / 59
      show s - j / 59 - 1 = s - (j + 1) / 59
      omega
    · show (59 : Nat) = 59 - (j + 1) % 59
      omega
  · rw [if_neg (by omega)]
    refine cpuFieldsEq _ _ rfl rfl rfl rfl rfl ?_ ?_ ?_
    · show (midCpu d s j).delay = d - (j + 1) / 59
      show d - j / 59 = d - (j + 1) / 59
      omega
    · show (midCpu d s j).sound = s - (j + 1) / 59
      show s - j / 59 = s - (j + 1) / 59
      omega
    · show (59 - j % 59 + 255) % 256 = 59 - (j + 1) % 59
      omega

theorem stepN_loop (d s : Nat) : ∀ (k j : Nat),
    stepN k (midCpu d s j) loopIo = .ok (midCpu d s (j + k), loopIo) := by
  intro k
  induction k with
  | zero =>
    intro j
    rw [Nat.add_zero]
    rfl
  | succ k ih =>
    intro j
    have e1 : stepN (k + 1) (midCpu d s j) loopIo =
        (match Cpu.step (midCpu d s j) loopIo with
          | .error e => (Except.error e : Except Err (Cpu × Io))
          | .ok r => stepN k r.1 r.2) := rfl
    rw [e1, step_loop d s j]
    have e2 : (match (Except.ok (midCpu d s (j + 1), loopIo) : Except Err (Cpu × Io)) with
          | .error e => (Except.error e : Except Err (Cpu × Io))
          | .ok r => stepN k r.1 r.2) = stepN k (midCpu d s (j + 1)) loopIo := rfl
    rw [e2, ih (j + 1)]
    rw [show j + 1 + k = j + (k + 1) from by omega]

/-- C4 (counterexample): from reset with delay = sound = 10, running the
jump-to-self ROM, the delay timer is still 10 after 58 steps but already
9 after 59 steps — the timers decrement once every 59 steps, not once
every 60 (the sub-tick counter is initialized to and reset to 59). -/
theorem claim4_counterexample :
    delayOf (stepN 58 { Cpu.new 0 with delay := 10, sound := 10 } loopIo) = 10 ∧
    delayOf (stepN 59 { Cpu.new 0 with delay := 10, sound := 10 } loopIo) = 9 := by
  refine ⟨by decide, by decide⟩

/-- C4 (amended): the sub-tick counter starts at 59 and is decremented at
the start of each step; when it reaches zero both timers are decremented
(saturating) together and the counter is reset to 59, so on the
jump-to-self ROM the timers after k steps hold their initial value minus
k / 59 and the counter holds 59 - k mod 59. -/
theorem claim4_amended (d s : Nat) (hd : d < 256) (hs : s < 256) (k : Nat) :
    stepN k { Cpu.new 0 with delay := d, sound := s } loopIo =
      .ok ({ Cpu.new 0 with delay := d - k / 59, sound := s - k / 59, cycle := 59 - k % 59 }, loopIo) := by
  rw [show ({ Cpu.new 0 with delay := d, sound := s } : Cpu) = midCpu d s 0 from rfl]
  have h := stepN_loop d s k 0
  rw [Nat.zero_add] at h
  exact h

/-- C4 (witness): the amended theorem at d = 3, s = 5, k = 2. -/
theorem claim4_witness :
    stepN 2 { Cpu.new 0 with delay := 3, sound := 5 } loopIo =
      .ok ({ Cpu.new 0 with delay := 3 - 2 / 59, sound := 5 - 2 / 59, cycle := 59 - 2 % 59 }, loopIo) :=
  claim4_amended 3 5 (by decide) (by decide) 2

theorem read_class (io : Io) (a : Nat) (e : Err)
    (h : Io.read io a = .error e) : errWithinModel e := by
  unfold Io.read at h
  split at h
  · exact absurd h (by simp)
  · injection h with h'
    subst h'
    show MEM_SIZE ≤ a
    omega

theorem write_class (io : Io) (a d : Nat) (e : Err)
    (h : Io.write io a d = .error e) : errWithinModel e := by
  unfold Io.write at h
  split at h
  · exact absurd h (by simp)
  · injection h with h'
    subst h'
    show MEM_SIZE ≤ a
    omega

theorem bind_class {α β : Type} (x : Except Err α) (f : α → Except Err β) (e : Err)
    (hx : ∀ e', x = .error e' → errWithinModel e')
    (hf : ∀ a e', f a = .error e' → errWithinModel e')
    (h : (x >>= f) = .error e) : errWithinModel e := by
  cases x with
  | error e' =>
    rw [error_bind] at h
    injection h with h'
    subst h'
    exact hx e' rfl
  | ok a =>
    rw [ok_bind] at h
    exact hf a e h

theorem foldlM_class {α : Type} (f : α → Nat → Except Err α)
    (hf : ∀ b i e, f b i = .error e → errWithinModel e) :
    ∀ (l : List Nat) (b : α) (e : Err),
      (l.foldlM f b) = .error e → errWithinModel e := by
  intro l
  induction l with
  | nil =>
    intro b e h
    rw [List.foldlM_nil] at h
    exact absurd h (by simp [pure, Except.pure])
  | cons a l' ih =>
    intro b e h
    rw [List.foldlM_cons] at h
    exact bind_class _ _ e (fun e' hx => hf b a e' hx)
      (fun b' e' h' => ih b' e' h') h

theorem pop_class (cpu : Cpu) (io : Io) (e : Err)
    (h : Cpu.pop cpu io = .error e) : errWithinModel e := by
  simp only [Cpu.pop] at h
  exact bind_class _ _ e (fun e' hx => read_class _ _ _ hx)
    (fun a e' h' => bind_class _ _ e' (fun e'' hx => read_class _ _ _ hx)
      (fun b e'' h'' => absurd h'' (by simp)) h') h

theorem push_class (cpu : Cpu) (io : Io) (d : Nat) (e : Err)
    (h : Cpu.push cpu io d = .error e) : errWithinModel e := by
  simp only [Cpu.push] at h
  exact bind_class _ _ e (fun e' hx => write_class _ _ _ _ hx)
    (fun a e' h' => bind_class _ _ e' (fun e'' hx => write_class _ _ _ _ hx)
      (fun b e'' h'' => absurd h'' (by simp)) h') h

theorem draw_class (io : Io) (x y n idx : Nat) (e : Err)
    (h : Io.draw io x y n idx = .error e) : errWithinModel e := by
  simp only [Io.draw] at h
  split at h
  · exact absurd h (by simp)
  · injection h with h'
    subst h'
    show MEM_SIZE < idx + n
    omega

theorem fetch_class (cpu : Cpu) (io : Io) (e : Err)
    (h : Cpu.fetch cpu io = .error e) : errWithinModel e := by
  simp only [Cpu.fetch] at h
  exact bind_class _ _ e (fun e' hx => read_class _ _ _ hx)
    (fun a e' h' => bind_class _ _ e' (fun e'' hx => read_class _ _ _ hx)
      (fun b e'' h'' => absurd h'' (by simp)) h') h

theorem exec_class (cpu : Cpu) (io : Io) (op : Nat) (e : Err)
    (h : Cpu.exec cpu io op = .error e) : errWithinModel e := by
  unfold Cpu.exec at h
  by_cases c1 : (op >>> 12) &&& 0xF = 0 ∧ (op >>> 8) &&& 0xF = 0 ∧ (op >>> 4) &&& 0xF = 0xE ∧ op &&& 0xF = 0
  case pos =>
    rw [if_pos c1] at h
    exact absurd h (by simp)
  rw [if_neg c1] at h
  by_cases c2 : (op >>> 12) &&& 0xF = 0 ∧ (op >>> 8) &&& 0xF = 0 ∧ (op >>> 4) &&& 0xF = 0xE ∧ op &&& 0xF = 0xE
  case pos =>
    rw [if_pos c2] at h
    exact bind_class _ _ _ (fun e1 hx => pop_class _ _ _ hx) (fun a e1 h1 => absurd h1 (by simp)) h
  rw [if_neg c2] at h
  by_cases c3 : (op >>> 12) &&& 0xF = 0
  case pos =>
    rw [if_pos c3] at h
    injection h with h2
    subst h2
    trivial
  rw [if_neg c3] at h
  by_cases c4 : (op >>> 12) &&& 0xF = 1
  case pos =>
    rw [if_pos c4] at h
    exact absurd h (by simp)
  rw [if_neg c4] at h
  by_cases c5 : (op >>> 12) &&& 0xF = 2
  case pos =>
    rw [if_pos c5] at h
    exact bind_class _ _ _ (fun e1 hx => push_class _ _ _ _ hx) (fun a e1 h1 => absurd h1 (by simp)) h
  rw [if_neg c5] at h
  by_cases c6 : (op >>> 12) &&& 0xF = 3
  case pos =>
    rw [if_pos c6] at h
    exact absurd h (by simp)
  rw [if_neg c6] at h
  by_cases c7 : (op >>> 12) &&& 0xF = 4
  case pos =>
    rw [if_pos c7] at h
    exact absurd h (by simp)
  rw [if_neg c7] at h
  by_cases c8 : (op >>> 12) &&& 0xF = 5 ∧ op &&& 0xF = 0
  case pos =>
    rw [if_pos c8] at h
    exact absurd h (by simp)
  rw [if_neg c8] at h
  by_cases c9 : (op >>> 12) &&& 0xF = 6
  case pos =>
    rw [if_pos c9] at h
    exact absurd h (by simp)
  rw [if_neg c9] at h
  by_cases c10 : (op >>> 12) &&& 0xF = 7
  case pos =>
    rw [if_pos c10] at h
    exact absurd h (by simp)
  rw [if_neg c10] at h
  by_cases c11 : (op >>> 12) &&& 0xF = 8 ∧ op &&& 0xF = 0
  case pos =>
    rw [if_pos c11] at h
    exact absurd h (by simp)
  rw [if_neg c11] at h
  by_cases c12 : (op >>> 12) &&& 0xF = 8 ∧ op &&& 0xF = 1
  case pos =>
    rw [if_pos c12] at h
    exact absurd h (by simp)
  rw [if_neg c12] at h
  by_cases c13 : (op >>> 12) &&& 0xF = 8 ∧ op &&& 0xF = 2
  case pos =>
    rw [if_pos c13] at h
    exact absurd h (by simp)
  rw [if_neg c13] at h
  by_cases c14 : (op >>> 12) &&& 0xF = 8 ∧ op &&& 0xF = 3
  case pos =>
    rw [if_pos c14] at h
    exact absurd h (by simp)
  rw [if_neg c14] at h
  by_cases c15 : (op >>> 12) &&& 0xF = 8 ∧ op &&& 0xF = 4
  case pos =>
    rw [if_pos c15] at h
    exact absurd h (by simp)
  rw [if_neg c15] at h
  by_cases c16 : (op >>> 12) &&& 0xF = 8 ∧ op &&& 0xF = 5
  case pos =>
    rw [if_pos c16] at h
    exact absurd h (by simp)
  rw [if_neg c16] at h
  by_cases c17 : (op >>> 12) &&& 0xF = 8 ∧ op &&& 0xF = 6
  case pos =>
    rw [if_pos c17] at h
    exact absurd h (by simp)
  rw [if_neg c17] at h
  by_cases c18 : (op >>> 12) &&& 0xF = 8 ∧ op &&& 0xF = 7
  case pos =>
    rw [if_pos c18] at h
    exact absurd h (by simp)
  rw [if_neg c18] at h
  by_cases c19 : (op >>> 12) &&& 0xF = 8 ∧ op &&& 0xF = 0xE
  case pos =>
    rw [if_pos c19] at h
    exact absurd h (by simp)
  rw [if_neg c19] at h
  by_cases c20 : (op >>> 12) &&& 0xF = 9 ∧ op &&& 0xF = 0
  case pos =>
    rw [if_pos c20] at h
    exact absurd h (by simp)
  rw [if_neg c20] at h
  by_cases c21 : (op >>> 12) &&& 0xF = 0xA
  case pos =>
    rw [if_pos c21] at h
    exact absurd h (by simp)
  rw [if_neg c21] at h
  by_cases c22 : (op >>> 12) &&& 0xF = 0xB
  case pos =>
    rw [if_pos c22] at h
    exact absurd h (by simp)
  rw [if_neg c22] at h
  by_cases c23 : (op >>> 12) &&& 0xF = 0xC
  case pos =>
    rw [if_pos c23] at h
    exact absurd h (by simp)
  rw [if_neg c23] at h
  by_cases c24 : (op >>> 12) &&& 0xF = 0xD
  case pos =>
    rw [if_pos c24] at h
    exact bind_class _ _ _ (fun e1 hx => draw_class _ _ _ _ _ _ hx) (fun a e1 h1 => absurd h1 (by simp)) h
  rw [if_neg c24] at h
  by_cases c25 : (op >>> 12) &&& 0xF = 0xE ∧ (op >>> 4) &&& 0xF = 9 ∧ op &&& 0xF = 0xE
  case pos =>
    rw [if_pos c25] at h
    exact absurd h (by simp)
  rw [if_neg c25] at h
  by_cases c26 : (op >>> 12) &&& 0xF = 0xE ∧ (op >>> 4) &&& 0xF = 0xA ∧ op &&& 0xF = 1
  case pos =>
    rw [if_pos c26] at h
    exact absurd h (by simp)
  rw [if_neg c26] at h
  by_cases c27 : (op >>> 12) &&& 0xF = 0xF ∧ (op >>> 4) &&& 0xF = 0 ∧ op &&& 0xF = 7
  case pos =>
    rw [if_pos c27] at h
    exact absurd h (by simp)
  rw [if_neg c27] at h
  by_cases c28 : (op >>> 12) &&& 0xF = 0xF ∧ (op >>> 4) &&& 0xF = 1 ∧ op &&& 0xF = 5
  case pos =>
    rw [if_pos c28] at h
    exact absurd h (by simp)
  rw [if_neg c28] at h
  by_cases c29 : (op >>> 12) &&& 0xF = 0xF ∧ (op >>> 4) &&& 0xF = 1 ∧ op &&& 0xF = 8
  case pos =>
    rw [if_pos c29] at h
    exact absurd h (by simp)
  rw [if_neg c29] at h
  by_cases c30 : (op >>> 12) &&& 0xF = 0xF ∧ (op >>> 4) &&& 0xF = 1 ∧ op &&& 0xF = 0xE
  case pos =>
    rw [if_pos c30] at h
    exact absurd h (by simp)
  rw [if_neg c30] at h
  by_cases c31 : (op >>> 12) &&& 0xF = 0xF ∧ (op >>> 4) &&& 0xF = 2 ∧ op &&& 0xF = 9
  case pos =>
    rw [if_pos c31] at h
    exact absurd h (by simp)
  rw [if_neg c31] at h
  by_cases c32 : (op >>> 12) &&& 0xF = 0xF ∧ (op >>> 4) &&& 0xF = 3 ∧ op &&& 0xF = 3
  case pos =>
    rw [if_pos c32] at h
    exact bind_class _ _ _ (fun e1 hx => foldlM_class _ (fun b i e2 hw => bind_class _ _ _ (fun e3 hx2 => write_class _ _ _ _ hx2) (fun a e3 h3 => absurd h3 (by simp)) hw) _ _ e1 hx) (fun a e1 h1 => absurd h1 (by simp)) h
  rw [if_neg c32] at h
  by_cases c33 : (op >>> 12) &&& 0xF = 0xF ∧ (op >>> 4) &&& 0xF = 5 ∧ op &&& 0xF = 5
  case pos =>
    rw [if_pos c33] at h
    exact bind_class _ _ _ (fun e1 hx => foldlM_class _ (fun b i e2 hw => write_class _ _ _ _ hw) _ _ e1 hx) (fun a e1 h1 => absurd h1 (by simp)) h
  rw [if_neg c33] at h
  by_cases c34 : (op >>> 12) &&& 0xF = 0xF ∧ (op >>> 4) &&& 0xF = 6 ∧ op &&& 0xF = 5
  case pos =>
    rw [if_pos c34] at h
    exact bind_class _ _ _ (fun e1 hx => foldlM_class _ (fun b i e2 hw => bind_class _ _ _ (fun e3 hx2 => read_class _ _ _ hx2) (fun a e3 h3 => absurd h3 (by simp)) hw) _ _ e1 hx) (fun a e1 h1 => absurd h1 (by simp)) h
  rw [if_neg c34] at h
  injection h with h2
  subst h2
  trivial

/-- C3 (amended): the step operation can abort not only on the two
documented fatal conditions (machine-code call, unrecognized opcode) but
also on an out-of-bounds memory access; every abort is one of these, and
an out-of-bounds abort only happens for an address at or beyond the
4096-byte memory (or a sprite slice running past it), which is reachable
because add-to-index can drive the index register past 4095. -/
theorem claim3_amended (cpu : Cpu) (io : Io) (e : Err)
    (h : Cpu.step cpu io = .error e) : errWithinModel e := by
  simp only [Cpu.step] at h
  exact bind_class _ _ e (fun e' hx => fetch_class _ _ _ hx)
    (fun r e' h' => exec_class _ _ _ _ h') h

/-- C3 (counterexample): a reachable out-of-bounds abort that is neither
of the two documented fatal conditions: from reset, the ROM 6001 AFFF
F01E F065 drives the index register to 4096 via add-to-index and the
register-load then faults with an out-of-bounds memory read at 4096. -/
theorem claim3_counterexample :
    errOf (stepN 4 (Cpu.new 0) oobIo) = some (.oob 4096) := by decide

/-- C3 (witness): the amended classification applied to the concrete
unrecognized-opcode abort on the ROM whose first word is 0xFFFF. -/
theorem claim3_witness : errWithinModel (Err.badOpcode 0xFFFF 0x200) :=
  claim3_amended (Cpu.new 0) badIo (Err.badOpcode 0xFFFF 0x200) rfl

end Chip8
